import Mathlib

set_option maxHeartbeats 1000000

namespace OlaSema

/-- Lexer tokens inspected by the semantic pass. Modelled from the spec:
lexer/token.rs is absent from src/; the pass (src/interpreter/src/sema/mod.rs)
uses the variants Id, ArrayId, Cid, Felt, I32, Array and Entry of the builtin
closed type set of section 3 of the spec, plus their Display strings. -/
inductive Token where
  | Id (name : String)
  | ArrayId (name : String)
  | Cid (name : String)
  | Felt
  | I32
  | Array (elem : Token) (len : Nat)
  | Entry
  deriving DecidableEq

/-- Modelled from the spec: the Display strings of tokens, used by the pass via
to_string for scope labels, symbol-table keys, and error messages. Identifier-like
tokens display as their bare name. -/
def Token.str : Token → String
  | .Id n => n
  | .ArrayId n => n
  | .Cid n => n
  | .Felt => "felt"
  | .I32 => "i32"
  | .Array e l => e.str ++ "[" ++ Nat.repr l ++ "]"
  | .Entry => "entry"

/-- Compile-time type value carried through the expression tree. Modelled from
the spec (section 3): utils/number.rs is absent from src/; a type value is Nil,
I32, Felt, or an array-element placeholder derived from a builtin type and a
length. Literal payloads are irrelevant to the pass and omitted. -/
inductive Number where
  | Nil
  | I32
  | Felt
  | NArr (elem : Number) (len : Nat)
  deriving DecidableEq

/-- Modelled from the spec: Number::from(&Token) resolves a type-annotation
token to the type value it denotes (section 4.1). -/
def Number.fromToken : Token → Number
  | .Felt => .Felt
  | .I32 => .I32
  | .Array e l => .NArr (Number.fromToken e) l
  | _ => .Nil

/-- Modelled from the spec: number_from_token(token, len) builds the
array-shaped type value whose element type comes from the token expanded to the
given length (section 4.4, identifier reference). -/
def numberFromToken (t : Token) (len : Nat) : Number :=
  .NArr (Number.fromToken t) len

/-- Modelled from the spec: Number::number_type() reports the type token of a
type value (utils/number.rs, absent from src/). -/
def Number.numberType : Number → Token
  | .Nil => .Entry
  | .I32 => .I32
  | .Felt => .Felt
  | .NArr e l => .Array (Number.numberType e) l

/-- Modelled from the spec: the numeric type-promotion lattice for binary
operators is an external, deterministic, total function over the finite type
domain (sections 1 and 4.1); equal operand types promote to themselves and a
Felt operand dominates an I32 operand. -/
def binopNumberType : Number → Number → Token
  | .Felt, _ => .Felt
  | _, .Felt => .Felt
  | .I32, .I32 => .I32
  | a, _ => a.numberType

/-- Traversal result: a single type value, or a sequence of them (section 3). -/
inductive NumberRet where
  | Single (n : Number)
  | Multiple (ns : List Number)
  deriving DecidableEq

/-- BuiltIn wrapper around a type token (sema/symbol.rs BuiltIn, absent from
src/; modelled from the spec, section 3, as a builtin type descriptor). -/
structure BuiltIn where
  t : Token
  deriving DecidableEq

mutual
/-- The mutable AST walked by the pass, one constructor per node kind of
parser/node.rs (node shapes as used by src/interpreter/src/sema/mod.rs).
Call nodes carry the optional resolved function symbol that the pass fills in. -/
inductive Node where
  | Entry (global_declarations : List Node) (entry_block : Node)
  | Block (declarations : List Node) (compound_statement : Node)
  | EntryBlock (declarations : List Node) (compound_statement : Node)
  | IdentDeclaration (identifier : Token) (type_token : Token)
  | TypeN (token : Token)
  | ArrayIdent (identifier : Token)
  | IntegerNum (v : Int)
  | FeltNum (v : Nat)
  | ArrayNum (values : List Number)
  | IdentIndex (identifier : Token) (index : Node)
  | BinOp (op : Token) (left : Node) (right : Node)
  | UnaryOp (op : Token) (expr : Node)
  | Compound (children : List Node)
  | Assign (identifier : Token) (expr : Node)
  | Ident (identifier : Token)
  | ContextIdent (identifier : Token)
  | Cond (condition : Node) (consequences : List Node) (alternatives : List Node)
  | Loop (condition : Node) (consequences : List Node)
  | Function (func_name : Token) (params : List Node) (block : Node)
  | Call (func_name : Token) (actual_params : List Node) (func_symbol : Option Symbol)
  | Return (returns : List Node)
  | MultiAssign (identifiers : List Node) (call : Node)
  | Malloc (num_bytes : Node)
  | Printf (flag : Node) (val_addr : Node)
  | Sqrt (sqrt_value : Node)

/-- Symbols recorded in scopes (sema/symbol.rs, absent from src/; modelled from
the spec, section 3): a pre-registered builtin type, a declared value binding
with optional array length, or a function signature with its body handle. -/
inductive Symbol where
  | BuiltInSymbol (b : BuiltIn)
  | IdentSymbol (name : String) (b : BuiltIn) (len : Option Nat)
  | FuncSymbol (name : String) (params : List (String × BuiltIn)) (body : Node)
end

/-- Modelled from the spec: symbols are inserted under their name (section 4.2). -/
def Symbol.symName : Symbol → String
  | .BuiltInSymbol b => b.t.str
  | .IdentSymbol n _ _ => n
  | .FuncSymbol n _ _ => n

/-- The optional array-length component of a variable symbol. -/
def symbolLen : Symbol → Option Nat
  | .IdentSymbol _ _ l => l
  | _ => none

/-- Whether a token denotes an array builtin type. -/
def isArrayTok : Token → Bool
  | .Array _ _ => true
  | _ => false

/-- Whether a recorded variable symbol is typed as an array builtin. -/
def bindingIsArray : Symbol → Bool
  | .IdentSymbol _ b _ => isArrayTok b.t
  | _ => false

/-- One lexical scope: label, nesting depth and name-to-symbol mapping
(sema/symbol.rs SymbolTable, absent from src/; modelled from the spec,
section 3).  The Arc chain of enclosing scopes is represented by the
position of the table in the scope-chain list below. -/
structure SymbolTable where
  name : String
  scope_level : Nat
  symbols : List (String × Symbol)

/-- The current scope chain, innermost scope first.  This represents the
current-scope cursor plus its parent-linked enclosing chain: the pass only ever
mutates the innermost scope, so value-passing the chain is faithful to the
shared-ownership Arc graph described in section 3 of the spec. -/
abbrev St := List SymbolTable

/-- Map lookup in one scope's name-to-symbol mapping. -/
def tblFind : List (String × Symbol) → String → Option Symbol
  | [], _ => none
  | (k, v) :: rest, key => if k = key then some v else tblFind rest key

/-- Map insertion with overwrite, the HashMap::insert behavior assumed by the
spec (section 4.2: insert overwrites silently for a repeated name). -/
def listInsert : List (String × Symbol) → String → Symbol → List (String × Symbol)
  | [], key, v => [(key, v)]
  | (k, v0) :: rest, key, v =>
      if k = key then (key, v) :: rest else (k, v0) :: listInsert rest key v

/-- Modelled from the spec: lookup(name) returns the symbol found in this
scope, else recurses into the enclosing scope, else none (section 4.2). -/
def lookup : St → String → Option Symbol
  | [], _ => none
  | sc :: rest, name =>
      match tblFind sc.symbols name with
      | some s => some s
      | none => lookup rest name

/-- Insert a symbol under its name into the innermost (current) scope. -/
def stInsert (sym : Symbol) : St → St
  | [] => []
  | sc :: rest => { sc with symbols := listInsert sc.symbols sym.symName sym } :: rest

/-- Insert a symbol under an explicit key into the innermost scope (the direct
symbols.insert used for function registration in travel_function). -/
def stInsertNamed (key : String) (sym : Symbol) : St → St
  | [] => []
  | sc :: rest => { sc with symbols := listInsert sc.symbols key sym } :: rest

/-- The pre-registered builtin type tokens (spec section 4.2: the grammar
guarantees type tokens are always pre-registered). -/
def isRegisteredBuiltin : Token → Bool
  | .Felt => true
  | .I32 => true
  | _ => false

/-- The scope level of the current (innermost) scope. -/
def headLevel : St → Nat
  | [] => 0
  | sc :: _ => sc.scope_level

/-- Outcome of a traversal step: an ordinary result, a recoverable semantic
error (Rust Err(String)), or a fatal internal abort (Rust panic). -/
inductive Outcome (α : Type) where
  | ok (a : α)
  | err (msg : String)
  | fatal (msg : String)
  deriving DecidableEq

/-- Whether an outcome is an ordinary result. -/
def Outcome.isOk {α : Type} : Outcome α → Bool
  | .ok _ => true
  | _ => false

/-- Modelled from the spec: SymbolTable::get (resolve_builtin, section 4.2)
lives in sema/symbol.rs which is absent from src/.  Per the spec, a builtin
type token resolves to its pre-registered BuiltInSymbol, and a token that is
not registered is an internal invariant violation reported as a fatal internal
error distinct from user-facing semantic errors. -/
def scopeGet (tok : Token) : Outcome Symbol :=
  if isRegisteredBuiltin tok then .ok (.BuiltInSymbol (BuiltIn.mk tok))
  else .fatal ("Invalid builtin type " ++ tok.str)

/-- One declared input or output of the VM invocation metadata (spec
section 4.4: a name and a compile-time length). -/
structure ProphetVar where
  name : String
  length : Nat

/-- Program metadata seeding the root scope (core OlaProphet, absent from
src/; modelled from the spec, section 4.4: input and output names with lengths
and context-variable names). -/
structure OlaProphet where
  inputs : List ProphetVar
  ctx : List (String × Nat)
  outputs : List ProphetVar

/-- The inf_var_insert macro of sema/mod.rs: an input or output of length 1 is
recorded as a scalar Felt variable with no array-length component; any other
length is recorded as a Felt array of that length, still with no array-length
component. -/
def infVarInsert (name : String) (length : Nat) (tbl : List (String × Symbol)) :
    List (String × Symbol) :=
  if length = 1 then
    listInsert tbl name (.IdentSymbol name (BuiltIn.mk .Felt) none)
  else
    listInsert tbl name (.IdentSymbol name (BuiltIn.mk (.Array .Felt length)) none)

/-- SymTableGen::new of sema/mod.rs: create the root scope and seed it with
the prophet's inputs, context variables and outputs. -/
def symTableGenNew (p : OlaProphet) : St :=
  let t0 : List (String × Symbol) := []
  let t1 := p.inputs.foldl (fun t i => infVarInsert i.name i.length t) t0
  let t2 := p.ctx.foldl
    (fun t c => listInsert t c.1 (.IdentSymbol c.1 (BuiltIn.mk .Felt) none)) t1
  let t3 := p.outputs.foldl (fun t o => infVarInsert o.name o.length t) t2
  [⟨"Global Scope", 1, t3⟩]

/-- travel_declaration (sema/mod.rs lines 98-126): for a declaration node the
name must not already resolve anywhere in the scope chain; the annotation is
then resolved and the variable symbol inserted into the current scope.  The
declaration node itself is never mutated, so only the outcome and the scope
chain are returned. -/
def travelDeclaration : Token → Token → St → Outcome NumberRet × St
  | .Id name, typeTok, st =>
      if (lookup st name).isSome then
        (.err ("Found duplicate variable declaration for \x27" ++ name ++ "\x27!"), st)
      else
        match typeTok with
        | .Array builtinTok len =>
            match scopeGet builtinTok with
            | .ok (.BuiltInSymbol b) =>
                (.ok (.Single .Nil), stInsert (.IdentSymbol name b (some len)) st)
            | .ok _ => (.ok (.Single .Nil), st)
            | .err m => (.err m, st)
            | .fatal m => (.fatal m, st)
        | _ =>
            match scopeGet typeTok with
            | .ok (.BuiltInSymbol b) =>
                (.ok (.Single .Nil), stInsert (.IdentSymbol name b none) st)
            | .ok _ => (.fatal ("Invalid builtin type " ++ typeTok.str), st)
            | .err m => (.err m, st)
            | .fatal m => (.fatal m, st)
  | _, _, st => (.ok (.Single .Nil), st)

/-- travel_ident (sema/mod.rs lines 214-241): resolve a plain identifier
reference; an array-typed variable re-tags the node token to ArrayId and types
as the element type expanded to the declared length, a scalar variable leaves
the node unchanged and types as its builtin type.  Returns the outcome and the
(possibly re-tagged) identifier token. -/
def travelIdent : Token → St → Outcome NumberRet × Token
  | .Id name, st =>
      match lookup st name with
      | none => (.err ("identifier Undeclared variable " ++ name ++ " found."), .Id name)
      | some (.IdentSymbol _ b sz) =>
          match sz with
          | some l => (.ok (.Single (numberFromToken b.t l)), .ArrayId name)
          | none => (.ok (.Single (Number.fromToken b.t)), .Id name)
      | some _ => (.fatal ("ident not support symbol type"), .Id name)
  | tok, _ => (.err ("Invalid identifier found travel_ident" ++ tok.str), tok)

/-- travel_context_ident (sema/mod.rs lines 243-259): a context identifier must
resolve in the scope chain and contributes no computed type. -/
def travelContextIdent : Token → St → Outcome NumberRet
  | .Cid name, st =>
      if (lookup st name).isNone then
        .err ("identifier Undeclared variable " ++ name ++ " found.")
      else .ok (.Single .Nil)
  | tok, _ => .err ("Invalid identifier found travel_context_ident" ++ tok.str)

/-- travel_array (sema/mod.rs lines 143-145): the type of an array literal is
read unconditionally from its first element; an empty literal hits the
out-of-bounds panic of values[0]. -/
def travelArray : List Number → Outcome NumberRet
  | [] => .fatal ("index out of bounds: the len is 0 but the index is 0")
  | v :: _ => .ok (.Single (Number.fromToken v.numberType))

/-- The identifier check of travel_assign (sema/mod.rs lines 193-210): a plain
identifier target must resolve (re-tagged to ArrayId if array-typed); a context
identifier target must resolve; any other token shape falls through unchecked. -/
def assignCheck : Token → St → Outcome Unit × Token
  | .Id name, st =>
      match lookup st name with
      | none => (.err ("assign Undeclared variable " ++ name ++ " found."), .Id name)
      | some (.IdentSymbol _ _ (some _)) => (.ok (), .ArrayId name)
      | some _ => (.ok (), .Id name)
  | .Cid name, st =>
      if (lookup st name).isNone then
        (.err ("assign Undeclared variable " ++ name ++ " found."), .Cid name)
      else (.ok (), .Cid name)
  | tok, _ => (.ok (), tok)

/-- The loop of travel_return (sema/mod.rs lines 368-389): every returned bare
identifier node must resolve, and is re-tagged to ArrayId when its symbol
carries an array length; non-identifier returned expressions are skipped. -/
def travelReturnGo : List Node → St → Outcome Unit × List Node
  | [], _ => (.ok (), [])
  | r :: rest, st =>
      match r with
      | .Ident tok =>
          let name := tok.str
          match lookup st name with
          | none => (.err ("assign Undeclared variable " ++ name ++ " found."), .Ident tok :: rest)
          | some (.IdentSymbol n2 _ (some _)) =>
              match travelReturnGo rest st with
              | (o, rest2) => (o, .Ident (.ArrayId n2) :: rest2)
          | some _ =>
              match travelReturnGo rest st with
              | (o, rest2) => (o, .Ident tok :: rest2)
      | other =>
          match travelReturnGo rest st with
          | (o, rest2) => (o, other :: rest2)

/-- travel_return (sema/mod.rs lines 368-389). -/
def travelReturn (rets : List Node) (st : St) : Outcome NumberRet × List Node :=
  match travelReturnGo rets st with
  | (.ok _, rs) => (.ok (.Single .Nil), rs)
  | (.err m, rs) => (.err m, rs)
  | (.fatal m, rs) => (.fatal m, rs)

/-- The Single/Multiple reduction of travel_binop (sema/mod.rs lines 170-178):
a Multiple is reduced to its first element, panicking if it is empty. -/
def reduceFirst : NumberRet → Outcome Number
  | .Single n => .ok n
  | .Multiple [] => .fatal ("index out of bounds: the len is 0 but the index is 0")
  | .Multiple (n :: _) => .ok n

/-- The actual-argument reduction of travel_call (sema/mod.rs lines 340-343):
a Multiple is reduced to an array-shaped type value from its first element's
type and its length, panicking if it is empty. -/
def reduceActual : NumberRet → Outcome Number
  | .Single n => .ok n
  | .Multiple [] => .fatal ("index out of bounds: the len is 0 but the index is 0")
  | .Multiple (n :: rest) => .ok (numberFromToken n.numberType (n :: rest).length)

/-- The parameter-matching loop of travel_call (sema/mod.rs lines 349-353):
each formal parameter's declared type is compared structurally against the
actual type at the same index; a missing actual hits the unwrap panic, a
mismatching one the explicit type-mismatch panic. -/
def checkParams : List (String × BuiltIn) → List Number → Nat → Outcome Unit
  | [], _, _ => .ok ()
  | p :: rest, tys, i =>
      match tys.get? i with
      | none => .fatal ("called Option::unwrap() on a None value")
      | some a =>
          if Number.fromToken p.2.t = a then checkParams rest tys (i + 1)
          else .fatal ("function params type not match")

/-- The is_node_type::<IdentNode> test of parser/traversal.rs (absent from
src/; modelled from the spec, section 4.3: node kinds are distinguished by
their dynamic node type). -/
def isIdentNode : Node → Bool
  | .Ident _ => true
  | _ => false

/-- The is_node_type::<ContextIdentNode> test of parser/traversal.rs (absent
from src/; modelled from the spec, section 4.3). -/
def isContextIdentNode : Node → Bool
  | .ContextIdent _ => true
  | _ => false

/-- The identifier token of an identifier-like node (the field read after the
safe_downcast_ref of travel_multi_assign). -/
def nodeIdentTok : Node → Token
  | .Ident tok => tok
  | .ContextIdent tok => tok
  | _ => .Entry

/-- The parameter-processing loop of travel_function (sema/mod.rs lines
288-311): every formal parameter node is downcast to a declaration node
(panicking otherwise), array-typed parameters are re-tagged to ArrayId, and the
ordered signature list, the function scope's symbol map, and the rewritten
parameter nodes are accumulated. -/
def processParams : List Node → List (String × BuiltIn) → List (String × Symbol) →
    Outcome (List (String × BuiltIn) × List (String × Symbol) × List Node)
  | [], syms, scope => .ok (syms, scope, [])
  | .IdentDeclaration identTok typeTok :: rest, syms, scope =>
      let name := identTok.str
      let identType := BuiltIn.mk typeTok
      let pr : Option Nat × Token :=
        match typeTok with
        | .Array _ len => (some len, .ArrayId name)
        | _ => (none, identTok)
      let entry := (pr.2.str, BuiltIn.mk typeTok)
      let sym := Symbol.IdentSymbol name identType pr.1
      match processParams rest (syms ++ [entry]) (listInsert scope name sym) with
      | .ok (s2, sc2, ps2) => .ok (s2, sc2, .IdentDeclaration pr.2 typeTok :: ps2)
      | .err m => .err m
      | .fatal m => .fatal m
  | _ :: _, _, _ => .fatal ("downcast to IdentDeclarationNode failed")

mutual
/-- The visitor dispatch (parser/traversal.rs travel, absent from src/;
modelled from the spec, section 4.3: one traversal entry point per node kind,
receiving the node mutably and the current scope state).  Each case embeds the
corresponding travel_ method of src/interpreter/src/sema/mod.rs, returning the
outcome, the possibly mutated node and the updated scope chain. -/
def travel : Node → St → Outcome NumberRet × Node × St
  | .Entry decls eb, st =>
      match travelList decls st with
      | (.ok _, decls2, st2) =>
          match travel eb st2 with
          | (r, eb2, st3) => (r, .Entry decls2 eb2, st3)
      | (.err m, decls2, st2) => (.err m, .Entry decls2 eb, st2)
      | (.fatal m, decls2, st2) => (.fatal m, .Entry decls2 eb, st2)
  | .Block decls comp, st =>
      match travelList decls st with
      | (.ok _, decls2, st2) =>
          match travel comp st2 with
          | (r, comp2, st3) => (r, .Block decls2 comp2, st3)
      | (.err m, decls2, st2) => (.err m, .Block decls2 comp, st2)
      | (.fatal m, decls2, st2) => (.fatal m, .Block decls2 comp, st2)
  | .EntryBlock decls comp, st =>
      let child : SymbolTable := ⟨Token.str .Entry, headLevel st + 1, []⟩
      match travelList decls (child :: st) with
      | (.ok _, decls2, st2) =>
          match travel comp st2 with
          | (r, comp2, st3) => (r, .EntryBlock decls2 comp2, st3)
      | (.err m, decls2, st2) => (.err m, .EntryBlock decls2 comp, st2)
      | (.fatal m, decls2, st2) => (.fatal m, .EntryBlock decls2 comp, st2)
  | .IdentDeclaration identTok typeTok, st =>
      match travelDeclaration identTok typeTok st with
      | (r, st2) => (r, .IdentDeclaration identTok typeTok, st2)
  | .TypeN tok, st => (.ok (.Single (Number.fromToken tok)), .TypeN tok, st)
  | .ArrayIdent tok, st => (.ok (.Single .Nil), .ArrayIdent tok, st)
  | .IntegerNum v, st => (.ok (.Single .I32), .IntegerNum v, st)
  | .FeltNum v, st => (.ok (.Single .Felt), .FeltNum v, st)
  | .ArrayNum vs, st => (travelArray vs, .ArrayNum vs, st)
  | .IdentIndex tok idx, st =>
      match tok with
      | .Id name =>
          if (lookup st name).isNone then
            (.err ("identifier Undeclared variable " ++ name ++ " found."),
             .IdentIndex tok idx, st)
          else
            match travel idx st with
            | (r, idx2, st2) => (r, .IdentIndex tok idx2, st2)
      | _ =>
          (.err ("Invalid identifier found travel_context_ident" ++ tok.str),
           .IdentIndex tok idx, st)
  | .BinOp op l r, st =>
      match travel l st with
      | (.ok lr, l2, st2) =>
          match travel r st2 with
          | (.ok rr, r2, st3) =>
              match reduceFirst lr with
              | .ok lt =>
                  match reduceFirst rr with
                  | .ok rt =>
                      (.ok (.Single (Number.fromToken (binopNumberType lt rt))),
                       .BinOp op l2 r2, st3)
                  | .err m => (.err m, .BinOp op l2 r2, st3)
                  | .fatal m => (.fatal m, .BinOp op l2 r2, st3)
              | .err m => (.err m, .BinOp op l2 r2, st3)
              | .fatal m => (.fatal m, .BinOp op l2 r2, st3)
          | (.err m, r2, st3) => (.err m, .BinOp op l2 r2, st3)
          | (.fatal m, r2, st3) => (.fatal m, .BinOp op l2 r2, st3)
      | (.err m, l2, st2) => (.err m, .BinOp op l2 r, st2)
      | (.fatal m, l2, st2) => (.fatal m, .BinOp op l2 r, st2)
  | .UnaryOp op e, st =>
      match travel e st with
      | (r, e2, st2) => (r, .UnaryOp op e2, st2)
  | .Compound ns, st =>
      match travelList ns st with
      | (.ok _, ns2, st2) => (.ok (.Single .Nil), .Compound ns2, st2)
      | (.err m, ns2, st2) => (.err m, .Compound ns2, st2)
      | (.fatal m, ns2, st2) => (.fatal m, .Compound ns2, st2)
  | .Assign idTok expr, st =>
      match assignCheck idTok st with
      | (.ok _, idTok2) =>
          match travel expr st with
          | (r, expr2, st2) => (r, .Assign idTok2 expr2, st2)
      | (.err m, idTok2) => (.err m, .Assign idTok2 expr, st)
      | (.fatal m, idTok2) => (.fatal m, .Assign idTok2 expr, st)
  | .Ident tok, st =>
      match travelIdent tok st with
      | (r, tok2) => (r, .Ident tok2, st)
  | .ContextIdent tok, st => (travelContextIdent tok st, .ContextIdent tok, st)
  | .Cond c cons alts, st =>
      match travel c st with
      | (.ok _, c2, st2) =>
          match travelList cons st2 with
          | (.ok _, cons2, st3) =>
              match travelList alts st3 with
              | (.ok _, alts2, st4) => (.ok (.Single .Nil), .Cond c2 cons2 alts2, st4)
              | (.err m, alts2, st4) => (.err m, .Cond c2 cons2 alts2, st4)
              | (.fatal m, alts2, st4) => (.fatal m, .Cond c2 cons2 alts2, st4)
          | (.err m, cons2, st3) => (.err m, .Cond c2 cons2 alts, st3)
          | (.fatal m, cons2, st3) => (.fatal m, .Cond c2 cons2 alts, st3)
      | (.err m, c2, st2) => (.err m, .Cond c2 cons alts, st2)
      | (.fatal m, c2, st2) => (.fatal m, .Cond c2 cons alts, st2)
  | .Loop c cons, st =>
      match travel c st with
      | (.ok _, c2, st2) =>
          match travelList cons st2 with
          | (.ok _, cons2, st3) => (.ok (.Single .Nil), .Loop c2 cons2, st3)
          | (.err m, cons2, st3) => (.err m, .Loop c2 cons2, st3)
          | (.fatal m, cons2, st3) => (.fatal m, .Loop c2 cons2, st3)
      | (.err m, c2, st2) => (.err m, .Loop c2 cons, st2)
      | (.fatal m, c2, st2) => (.fatal m, .Loop c2 cons, st2)
  | .Function fname params block, st =>
      match fname with
      | .Id func_name =>
          match processParams params [] [] with
          | .ok (param_symbols, param_scope, params2) =>
              let st2 := stInsertNamed func_name
                (.FuncSymbol func_name param_symbols block) st
              let fnScope : SymbolTable := ⟨func_name, headLevel st2 + 1, param_scope⟩
              match travel block (fnScope :: st2) with
              | (.ok _, block2, st3) =>
                  match st3 with
                  | [] =>
                      (.fatal ("called Option::unwrap() on a None value"),
                       .Function fname params2 block2, st3)
                  | [x] =>
                      (.fatal ("called Option::unwrap() on a None value"),
                       .Function fname params2 block2, [x])
                  | _ :: rest =>
                      (.ok (.Single .Nil), .Function fname params2 block2, rest)
              | (.err m, block2, st3) => (.err m, .Function fname params2 block2, st3)
              | (.fatal m, block2, st3) => (.fatal m, .Function fname params2 block2, st3)
          | .err m => (.err m, .Function fname params block, st)
          | .fatal m => (.fatal m, .Function fname params block, st)
      | _ => (.ok (.Single .Nil), .Function fname params block, st)
  | .Call fname actuals fs, st =>
      let symbol := lookup st fname.str
      match travelActuals actuals st with
      | (.ok tys, actuals2, st2) =>
          match symbol with
          | some (.FuncSymbol n ps body) =>
              match checkParams ps tys 0 with
              | .ok _ =>
                  (.ok (.Single .Nil),
                   .Call fname actuals2 (some (.FuncSymbol n ps body)), st2)
              | .err m => (.err m, .Call fname actuals2 fs, st2)
              | .fatal m => (.fatal m, .Call fname actuals2 fs, st2)
          | some _ => (.fatal ("not support symbol for function"), .Call fname actuals2 fs, st2)
          | none => (.fatal ("not found function"), .Call fname actuals2 fs, st2)
      | (.err m, actuals2, st2) => (.err m, .Call fname actuals2 fs, st2)
      | (.fatal m, actuals2, st2) => (.fatal m, .Call fname actuals2 fs, st2)
  | .Return rets, st =>
      match travelReturn rets st with
      | (o, rs) => (o, .Return rs, st)
  | .MultiAssign ids call, st =>
      match travelMaTargets ids st with
      | (.ok _, ids2, st2) =>
          match travel call st2 with
          | (.ok _, call2, st3) => (.ok (.Single .Nil), .MultiAssign ids2 call2, st3)
          | (.err m, call2, st3) => (.err m, .MultiAssign ids2 call2, st3)
          | (.fatal m, call2, st3) => (.fatal m, .MultiAssign ids2 call2, st3)
      | (.err m, ids2, st2) => (.err m, .MultiAssign ids2 call, st2)
      | (.fatal m, ids2, st2) => (.fatal m, .MultiAssign ids2 call, st2)
  | .Malloc e, st =>
      match travel e st with
      | (r, e2, st2) => (r, .Malloc e2, st2)
  | .Printf f v, st =>
      match travel f st with
      | (.ok _, f2, st2) =>
          match travel v st2 with
          | (r, v2, st3) => (r, .Printf f2 v2, st3)
      | (.err m, f2, st2) => (.err m, .Printf f2 v, st2)
      | (.fatal m, f2, st2) => (.fatal m, .Printf f2 v, st2)
  | .Sqrt e, st =>
      match travel e st with
      | (r, e2, st2) => (r, .Sqrt e2, st2)

/-- The short-circuiting statement/declaration loops of the pass (the
for-loops with the question-mark operator): traverse each node in order,
stopping at the first error and leaving the remaining nodes untouched. -/
def travelList : List Node → St → Outcome Unit × List Node × St
  | [], st => (.ok (), [], st)
  | n :: rest, st =>
      match travel n st with
      | (.ok _, n2, st2) =>
          match travelList rest st2 with
          | (r, rest2, st3) => (r, n2 :: rest2, st3)
      | (.err m, n2, st2) => (.err m, n2 :: rest, st2)
      | (.fatal m, n2, st2) => (.fatal m, n2 :: rest, st2)

/-- The actual-argument loop of travel_call (sema/mod.rs lines 337-346): type
each actual argument in order, reduce every result to a representative type
value, stopping at the first error. -/
def travelActuals : List Node → St → Outcome (List Number) × List Node × St
  | [], st => (.ok [], [], st)
  | n :: rest, st =>
      match travel n st with
      | (.ok r, n2, st2) =>
          match reduceActual r with
          | .ok ty =>
              match travelActuals rest st2 with
              | (.ok tys, rest2, st3) => (.ok (ty :: tys), n2 :: rest2, st3)
              | (.err m, rest2, st3) => (.err m, n2 :: rest2, st3)
              | (.fatal m, rest2, st3) => (.fatal m, n2 :: rest2, st3)
          | .err m => (.err m, n2 :: rest, st2)
          | .fatal m => (.fatal m, n2 :: rest, st2)
      | (.err m, n2, st2) => (.err m, n2 :: rest, st2)
      | (.fatal m, n2, st2) => (.fatal m, n2 :: rest, st2)

/-- The left-hand-side loop of travel_multi_assign (sema/mod.rs lines 391-410):
bare identifier and context-identifier targets are only checked for being
declared; every other target shape goes through the general traversal. -/
def travelMaTargets : List Node → St → Outcome Unit × List Node × St
  | [], st => (.ok (), [], st)
  | n :: rest, st =>
      if isIdentNode n || isContextIdentNode n then
        if (lookup st (nodeIdentTok n).str).isNone then
          (.err ("assign Undeclared variable " ++ (nodeIdentTok n).str ++ " found."),
           n :: rest, st)
        else
          match travelMaTargets rest st with
          | (r, rest2, st2) => (r, n :: rest2, st2)
      else
        match travel n st with
        | (.ok _, n2, st2) =>
            match travelMaTargets rest st2 with
            | (r, rest2, st3) => (r, n2 :: rest2, st3)
        | (.err m, n2, st2) => (.err m, n2 :: rest, st2)
        | (.fatal m, n2, st2) => (.fatal m, n2 :: rest, st2)
end

mutual
/-- Whether a node's syntactic subtree is free of entry-block nodes (the entry
block is the unique construct whose scope push is deliberately never popped). -/
def noEBb : Node → Bool
  | .Entry ds eb => noEBList ds && noEBb eb
  | .Block ds c => noEBList ds && noEBb c
  | .EntryBlock _ _ => false
  | .IdentDeclaration _ _ => true
  | .TypeN _ => true
  | .ArrayIdent _ => true
  | .IntegerNum _ => true
  | .FeltNum _ => true
  | .ArrayNum _ => true
  | .IdentIndex _ idx => noEBb idx
  | .BinOp _ l r => noEBb l && noEBb r
  | .UnaryOp _ e => noEBb e
  | .Compound ns => noEBList ns
  | .Assign _ e => noEBb e
  | .Ident _ => true
  | .ContextIdent _ => true
  | .Cond c cons alts => noEBb c && (noEBList cons && noEBList alts)
  | .Loop c cons => noEBb c && noEBList cons
  | .Function _ ps blk => noEBList ps && noEBb blk
  | .Call _ actuals _ => noEBList actuals
  | .Return _ => true
  | .MultiAssign ids call => noEBList ids && noEBb call
  | .Malloc e => noEBb e
  | .Printf f v => noEBb f && noEBb v
  | .Sqrt e => noEBb e

/-- List version of noEBb. -/
def noEBList : List Node → Bool
  | [] => true
  | n :: rest => noEBb n && noEBList rest
end

/-- The shape of a scope chain: the label and nesting depth of every scope from
the cursor to the root.  Two chains with the same shape have their cursor on
the same scope of the scope tree (symbol contents may differ, since inserting
into a scope mutates it in place without moving the cursor). -/
def shape (st : St) : List (String × Nat) :=
  st.map (fun sc => (sc.name, sc.scope_level))

theorem shape_stInsert (s : Symbol) (st : St) : shape (stInsert s st) = shape st := by
  cases st <;> simp [stInsert, shape]

theorem shape_stInsertNamed (k : String) (s : Symbol) (st : St) :
    shape (stInsertNamed k s st) = shape st := by
  cases st <;> simp [stInsertNamed, shape]

theorem travelDeclaration_shape (identTok typeTok : Token) (st : St)
    (r : Outcome NumberRet) (st2 : St)
    (he : travelDeclaration identTok typeTok st = (r, st2)) : shape st2 = shape st := by
  cases identTok <;> simp only [travelDeclaration] at he <;>
    try (cases he; rfl)
  split at he
  · cases he; rfl
  · split at he <;> split at he <;> cases he <;>
      simp [shape_stInsert]

theorem isOk_ok {α : Type} (a : α) : (Outcome.ok a).isOk = true := rfl

theorem isOk_err {α : Type} (m : String) : ((Outcome.err m : Outcome α)).isOk = false := rfl

theorem isOk_fatal {α : Type} (m : String) : ((Outcome.fatal m : Outcome α)).isOk = false := rfl

mutual
/-- Scope-shape preservation: on the success path, traversing any node free of
entry-block nodes returns the current-scope cursor to the scope it started on
(the chain of labels and levels is unchanged; only symbol contents may have
been extended in place). -/
theorem travel_shape (n : Node) (st : St) (h : noEBb n = true)
    (r : Outcome NumberRet) (n2 : Node) (st2 : St)
    (he : travel n st = (r, n2, st2)) (hok : r.isOk = true) : shape st2 = shape st := by
  cases n with
  | Entry decls eb =>
    simp only [noEBb, Bool.and_eq_true] at h
    simp only [travel] at he
    rcases hL : travelList decls st with ⟨o, d2, s2⟩
    rw [hL] at he
    cases o with
    | ok u =>
      (try dsimp only at he)
      rcases hE : travel eb s2 with ⟨o2, e2, s3⟩
      rw [hE] at he
      (try dsimp only at he)
      simp only [Prod.mk.injEq] at he
      obtain ⟨h1, _, h3⟩ := he
      subst h1; subst h3
      have ihl := travelList_shape decls st h.1 _ _ _ hL rfl
      have ihe := travel_shape eb s2 h.2 _ _ _ hE hok
      rw [ihe, ihl]
    | err m =>
      (try dsimp only at he)
      simp only [Prod.mk.injEq] at he
      obtain ⟨h1, _, _⟩ := he
      subst h1; simp [Outcome.isOk] at hok
    | fatal m =>
      (try dsimp only at he)
      simp only [Prod.mk.injEq] at he
      obtain ⟨h1, _, _⟩ := he
      subst h1; simp [Outcome.isOk] at hok
  | Block decls comp =>
    simp only [noEBb, Bool.and_eq_true] at h
    simp only [travel] at he
    rcases hL : travelList decls st with ⟨o, d2, s2⟩
    rw [hL] at he
    cases o with
    | ok u =>
      (try dsimp only at he)
      rcases hE : travel comp s2 with ⟨o2, e2, s3⟩
      rw [hE] at he
      (try dsimp only at he)
      simp only [Prod.mk.injEq] at he
      obtain ⟨h1, _, h3⟩ := he
      subst h1; subst h3
      have ihl := travelList_shape decls st h.1 _ _ _ hL rfl
      have ihe := travel_shape comp s2 h.2 _ _ _ hE hok
      rw [ihe, ihl]
    | err m =>
      (try dsimp only at he)
      simp only [Prod.mk.injEq] at he
      obtain ⟨h1, _, _⟩ := he
      subst h1; simp [Outcome.isOk] at hok
    | fatal m =>
      (try dsimp only at he)
      simp only [Prod.mk.injEq] at he
      obtain ⟨h1, _, _⟩ := he
      subst h1; simp [Outcome.isOk] at hok
  | EntryBlock decls comp => simp [noEBb] at h
  | IdentDeclaration identTok typeTok =>
    simp only [travel] at he
    rcases hD : travelDeclaration identTok typeTok st with ⟨o, s2⟩
    rw [hD] at he
    (try dsimp only at he)
    simp only [Prod.mk.injEq] at he
    obtain ⟨_, _, h3⟩ := he
    subst h3
    exact travelDeclaration_shape identTok typeTok st _ _ hD
  | TypeN tok =>
    simp only [travel, Prod.mk.injEq] at he
    obtain ⟨_, _, h3⟩ := he; subst h3; rfl
  | ArrayIdent tok =>
    simp only [travel, Prod.mk.injEq] at he
    obtain ⟨_, _, h3⟩ := he; subst h3; rfl
  | IntegerNum v =>
    simp only [travel, Prod.mk.injEq] at he
    obtain ⟨_, _, h3⟩ := he; subst h3; rfl
  | FeltNum v =>
    simp only [travel, Prod.mk.injEq] at he
    obtain ⟨_, _, h3⟩ := he; subst h3; rfl
  | ArrayNum vs =>
    simp only [travel, Prod.mk.injEq] at he
    obtain ⟨_, _, h3⟩ := he; subst h3; rfl
  | IdentIndex tok idx =>
    simp only [noEBb] at h
    cases tok with
    | Id name =>
      simp only [travel] at he
      split at he
      · simp only [Prod.mk.injEq] at he
        obtain ⟨h1, _, _⟩ := he
        subst h1; simp [Outcome.isOk] at hok
      · rcases hI : travel idx st with ⟨o, i2, s2⟩
        rw [hI] at he
        (try dsimp only at he)
        simp only [Prod.mk.injEq] at he
        obtain ⟨h1, _, h3⟩ := he
        subst h1; subst h3
        exact travel_shape idx st h _ _ _ hI hok
    | ArrayId name =>
      simp only [travel, Prod.mk.injEq] at he
      obtain ⟨h1, _, _⟩ := he; subst h1; simp [Outcome.isOk] at hok
    | Cid name =>
      simp only [travel, Prod.mk.injEq] at he
      obtain ⟨h1, _, _⟩ := he; subst h1; simp [Outcome.isOk] at hok
    | Felt =>
      simp only [travel, Prod.mk.injEq] at he
      obtain ⟨h1, _, _⟩ := he; subst h1; simp [Outcome.isOk] at hok
    | I32 =>
      simp only [travel, Prod.mk.injEq] at he
      obtain ⟨h1, _, _⟩ := he; subst h1; simp [Outcome.isOk] at hok
    | Array e l =>
      simp only [travel, Prod.mk.injEq] at he
      obtain ⟨h1, _, _⟩ := he; subst h1; simp [Outcome.isOk] at hok
    | Entry =>
      simp only [travel, Prod.mk.injEq] at he
      obtain ⟨h1, _, _⟩ := he; subst h1; simp [Outcome.isOk] at hok
  | BinOp op ln rn =>
    simp only [noEBb, Bool.and_eq_true] at h
    simp only [travel] at he
    rcases hL : travel ln st with ⟨o1, l2, s2⟩
    rw [hL] at he
    cases o1 with
    | ok lr =>
      (try dsimp only at he)
      rcases hR : travel rn s2 with ⟨o2, r2, s3⟩
      rw [hR] at he
      cases o2 with
      | ok rr =>
        (try dsimp only at he)
        have ih1 := travel_shape ln st h.1 _ _ _ hL rfl
        have ih2 := travel_shape rn s2 h.2 _ _ _ hR rfl
        cases hF1 : reduceFirst lr with
        | ok lt =>
          rw [hF1] at he
          (try dsimp only at he)
          cases hF2 : reduceFirst rr with
          | ok rt =>
            rw [hF2] at he
            (try dsimp only at he)
            simp only [Prod.mk.injEq] at he
            obtain ⟨_, _, h3⟩ := he; subst h3
            rw [ih2, ih1]
          | err m =>
            rw [hF2] at he
            (try dsimp only at he)
            simp only [Prod.mk.injEq] at he
            obtain ⟨h1, _, _⟩ := he; subst h1; simp [Outcome.isOk] at hok
          | fatal m =>
            rw [hF2] at he
            (try dsimp only at he)
            simp only [Prod.mk.injEq] at he
            obtain ⟨h1, _, _⟩ := he; subst h1; simp [Outcome.isOk] at hok
        | err m =>
          rw [hF1] at he
          (try dsimp only at he)
          simp only [Prod.mk.injEq] at he
          obtain ⟨h1, _, _⟩ := he; subst h1; simp [Outcome.isOk] at hok
        | fatal m =>
          rw [hF1] at he
          (try dsimp only at he)
          simp only [Prod.mk.injEq] at he
          obtain ⟨h1, _, _⟩ := he; subst h1; simp [Outcome.isOk] at hok
      | err m =>
        (try dsimp only at he)
        simp only [Prod.mk.injEq] at he
        obtain ⟨h1, _, _⟩ := he; subst h1; simp [Outcome.isOk] at hok
      | fatal m =>
        (try dsimp only at he)
        simp only [Prod.mk.injEq] at he
        obtain ⟨h1, _, _⟩ := he; subst h1; simp [Outcome.isOk] at hok
    | err m =>
      (try dsimp only at he)
      simp only [Prod.mk.injEq] at he
      obtain ⟨h1, _, _⟩ := he; subst h1; simp [Outcome.isOk] at hok
    | fatal m =>
      (try dsimp only at he)
      simp only [Prod.mk.injEq] at he
      obtain ⟨h1, _, _⟩ := he; subst h1; simp [Outcome.isOk] at hok
  | UnaryOp op e =>
    simp only [noEBb] at h
    simp only [travel] at he
    rcases hE : travel e st with ⟨o, e2, s2⟩
    rw [hE] at he
    (try dsimp only at he)
    simp only [Prod.mk.injEq] at he
    obtain ⟨h1, _, h3⟩ := he
    subst h1; subst h3
    exact travel_shape e st h _ _ _ hE hok
  | Compound ns =>
    simp only [noEBb] at h
    simp only [travel] at he
    rcases hL : travelList ns st with ⟨o, ns2, s2⟩
    rw [hL] at he
    cases o with
    | ok u =>
      (try dsimp only at he)
      simp only [Prod.mk.injEq] at he
      obtain ⟨_, _, h3⟩ := he; subst h3
      exact travelList_shape ns st h _ _ _ hL rfl
    | err m =>
      (try dsimp only at he)
      simp only [Prod.mk.injEq] at he
      obtain ⟨h1, _, _⟩ := he; subst h1; simp [Outcome.isOk] at hok
    | fatal m =>
      (try dsimp only at he)
      simp only [Prod.mk.injEq] at he
      obtain ⟨h1, _, _⟩ := he; subst h1; simp [Outcome.isOk] at hok
  | Assign idTok expr =>
    simp only [noEBb] at h
    simp only [travel] at he
    rcases hA : assignCheck idTok st with ⟨oA, tok2⟩
    rw [hA] at he
    cases oA with
    | ok u =>
      (try dsimp only at he)
      rcases hE : travel expr st with ⟨o, e2, s2⟩
      rw [hE] at he
      (try dsimp only at he)
      simp only [Prod.mk.injEq] at he
      obtain ⟨h1, _, h3⟩ := he
      subst h1; subst h3
      exact travel_shape expr st h _ _ _ hE hok
    | err m =>
      (try dsimp only at he)
      simp only [Prod.mk.injEq] at he
      obtain ⟨h1, _, h3⟩ := he
      subst h1; simp [Outcome.isOk] at hok
    | fatal m =>
      (try dsimp only at he)
      simp only [Prod.mk.injEq] at he
      obtain ⟨h1, _, h3⟩ := he
      subst h1; simp [Outcome.isOk] at hok
  | Ident tok =>
    simp only [travel] at he
    rcases hI : travelIdent tok st with ⟨o, tok2⟩
    rw [hI] at he
    (try dsimp only at he)
    simp only [Prod.mk.injEq] at he
    obtain ⟨_, _, h3⟩ := he; subst h3; rfl
  | ContextIdent tok =>
    simp only [travel, Prod.mk.injEq] at he
    obtain ⟨_, _, h3⟩ := he; subst h3; rfl
  | Cond c cons alts =>
    simp only [noEBb, Bool.and_eq_true] at h
    obtain ⟨hc, hcons, halts⟩ := h
    simp only [travel] at he
    rcases h1e : travel c st with ⟨o1, c2, s2⟩
    rw [h1e] at he
    cases o1 with
    | ok u1 =>
      (try dsimp only at he)
      rcases h2e : travelList cons s2 with ⟨o2, cons2, s3⟩
      rw [h2e] at he
      cases o2 with
      | ok u2 =>
        (try dsimp only at he)
        rcases h3e : travelList alts s3 with ⟨o3, alts2, s4⟩
        rw [h3e] at he
        cases o3 with
        | ok u3 =>
          (try dsimp only at he)
          simp only [Prod.mk.injEq] at he
          obtain ⟨_, _, h3⟩ := he; subst h3
          have ih1 := travel_shape c st hc _ _ _ h1e rfl
          have ih2 := travelList_shape cons s2 hcons _ _ _ h2e rfl
          have ih3 := travelList_shape alts s3 halts _ _ _ h3e rfl
          rw [ih3, ih2, ih1]
        | err m =>
          (try dsimp only at he)
          simp only [Prod.mk.injEq] at he
          obtain ⟨h1, _, _⟩ := he; subst h1; simp [Outcome.isOk] at hok
        | fatal m =>
          (try dsimp only at he)
          simp only [Prod.mk.injEq] at he
          obtain ⟨h1, _, _⟩ := he; subst h1; simp [Outcome.isOk] at hok
      | err m =>
        (try dsimp only at he)
        simp only [Prod.mk.injEq] at he
        obtain ⟨h1, _, _⟩ := he; subst h1; simp [Outcome.isOk] at hok
      | fatal m =>
        (try dsimp only at he)
        simp only [Prod.mk.injEq] at he
        obtain ⟨h1, _, _⟩ := he; subst h1; simp [Outcome.isOk] at hok
    | err m =>
      (try dsimp only at he)
      simp only [Prod.mk.injEq] at he
      obtain ⟨h1, _, _⟩ := he; subst h1; simp [Outcome.isOk] at hok
    | fatal m =>
      (try dsimp only at he)
      simp only [Prod.mk.injEq] at he
      obtain ⟨h1, _, _⟩ := he; subst h1; simp [Outcome.isOk] at hok
  | Loop c cons =>
    simp only [noEBb, Bool.and_eq_true] at h
    obtain ⟨hc, hcons⟩ := h
    simp only [travel] at he
    rcases h1e : travel c st with ⟨o1, c2, s2⟩
    rw [h1e] at he
    cases o1 with
    | ok u1 =>
      (try dsimp only at he)
      rcases h2e : travelList cons s2 with ⟨o2, cons2, s3⟩
      rw [h2e] at he
      cases o2 with
      | ok u2 =>
        (try dsimp only at he)
        simp only [Prod.mk.injEq] at he
        obtain ⟨_, _, h3⟩ := he; subst h3
        have ih1 := travel_shape c st hc _ _ _ h1e rfl
        have ih2 := travelList_shape cons s2 hcons _ _ _ h2e rfl
        rw [ih2, ih1]
      | err m =>
        (try dsimp only at he)
        simp only [Prod.mk.injEq] at he
        obtain ⟨h1, _, _⟩ := he; subst h1; simp [Outcome.isOk] at hok
      | fatal m =>
        (try dsimp only at he)
        simp only [Prod.mk.injEq] at he
        obtain ⟨h1, _, _⟩ := he; subst h1; simp [Outcome.isOk] at hok
    | err m =>
      (try dsimp only at he)
      simp only [Prod.mk.injEq] at he
      obtain ⟨h1, _, _⟩ := he; subst h1; simp [Outcome.isOk] at hok
    | fatal m =>
      (try dsimp only at he)
      simp only [Prod.mk.injEq] at he
      obtain ⟨h1, _, _⟩ := he; subst h1; simp [Outcome.isOk] at hok
  | Function fname params blk =>
    simp only [noEBb, Bool.and_eq_true] at h
    cases fname with
    | Id func_name =>
      simp only [travel] at he
      cases hP : processParams params [] [] with
      | ok trip =>
        obtain ⟨psyms, pscope, params2⟩ := trip
        rw [hP] at he
        (try dsimp only at he)
        split at he
        next x aB b2 s3 hB =>
          cases s3 with
          | nil =>
            (try dsimp only at he)
            simp only [Prod.mk.injEq] at he
            obtain ⟨h1, _, _⟩ := he; subst h1; simp [Outcome.isOk] at hok
          | cons y tail =>
            cases tail with
            | nil =>
              (try dsimp only at he)
              simp only [Prod.mk.injEq] at he
              obtain ⟨h1, _, _⟩ := he; subst h1; simp [Outcome.isOk] at hok
            | cons z t =>
              (try dsimp only at he)
              simp only [Prod.mk.injEq] at he
              obtain ⟨_, _, h3⟩ := he; subst h3
              have ihB := travel_shape blk _ h.2 _ _ _ hB rfl
              have h6 := congrArg List.tail ihB
              have h7 : shape (z :: t) = shape (stInsertNamed func_name
                  (Symbol.FuncSymbol func_name psyms blk) st) := by
                simpa [shape] using h6
              rw [h7, shape_stInsertNamed]
        next x mB b2 s3 hB =>
          simp only [Prod.mk.injEq] at he
          obtain ⟨h1, _, _⟩ := he; subst h1; simp [Outcome.isOk] at hok
        next x mB b2 s3 hB =>
          simp only [Prod.mk.injEq] at he
          obtain ⟨h1, _, _⟩ := he; subst h1; simp [Outcome.isOk] at hok
      | err m =>
        rw [hP] at he
        (try dsimp only at he)
        simp only [Prod.mk.injEq] at he
        obtain ⟨h1, _, _⟩ := he; subst h1; simp [Outcome.isOk] at hok
      | fatal m =>
        rw [hP] at he
        (try dsimp only at he)
        simp only [Prod.mk.injEq] at he
        obtain ⟨h1, _, _⟩ := he; subst h1; simp [Outcome.isOk] at hok
    | ArrayId name =>
      simp only [travel, Prod.mk.injEq] at he
      obtain ⟨_, _, h3⟩ := he; subst h3; rfl
    | Cid name =>
      simp only [travel, Prod.mk.injEq] at he
      obtain ⟨_, _, h3⟩ := he; subst h3; rfl
    | Felt =>
      simp only [travel, Prod.mk.injEq] at he
      obtain ⟨_, _, h3⟩ := he; subst h3; rfl
    | I32 =>
      simp only [travel, Prod.mk.injEq] at he
      obtain ⟨_, _, h3⟩ := he; subst h3; rfl
    | Array e l =>
      simp only [travel, Prod.mk.injEq] at he
      obtain ⟨_, _, h3⟩ := he; subst h3; rfl
    | Entry =>
      simp only [travel, Prod.mk.injEq] at he
      obtain ⟨_, _, h3⟩ := he; subst h3; rfl
  | Call fname actuals fs =>
    simp only [noEBb] at h
    simp only [travel] at he
    rcases hA : travelActuals actuals st with ⟨oA, a2, s2⟩
    rw [hA] at he
    cases oA with
    | ok tys =>
      (try dsimp only at he)
      have ihA := travelActuals_shape actuals st h _ _ _ hA rfl
      cases hS : lookup st (Token.str fname) with
      | none =>
        rw [hS] at he
        (try dsimp only at he)
        simp only [Prod.mk.injEq] at he
        obtain ⟨h1, _, _⟩ := he; subst h1; simp [Outcome.isOk] at hok
      | some s =>
        cases s with
        | FuncSymbol nm ps body =>
          rw [hS] at he
          (try dsimp only at he)
          cases hC : checkParams ps tys 0 with
          | ok u =>
            rw [hC] at he
            (try dsimp only at he)
            simp only [Prod.mk.injEq] at he
            obtain ⟨_, _, h3⟩ := he; subst h3
            exact ihA
          | err m =>
            rw [hC] at he
            (try dsimp only at he)
            simp only [Prod.mk.injEq] at he
            obtain ⟨h1, _, _⟩ := he; subst h1; simp [Outcome.isOk] at hok
          | fatal m =>
            rw [hC] at he
            (try dsimp only at he)
            simp only [Prod.mk.injEq] at he
            obtain ⟨h1, _, _⟩ := he; subst h1; simp [Outcome.isOk] at hok
        | BuiltInSymbol b =>
          rw [hS] at he
          (try dsimp only at he)
          simp only [Prod.mk.injEq] at he
          obtain ⟨h1, _, _⟩ := he; subst h1; simp [Outcome.isOk] at hok
        | IdentSymbol nm b l =>
          rw [hS] at he
          (try dsimp only at he)
          simp only [Prod.mk.injEq] at he
          obtain ⟨h1, _, _⟩ := he; subst h1; simp [Outcome.isOk] at hok
    | err m =>
      (try dsimp only at he)
      simp only [Prod.mk.injEq] at he
      obtain ⟨h1, _, _⟩ := he; subst h1; simp [Outcome.isOk] at hok
    | fatal m =>
      (try dsimp only at he)
      simp only [Prod.mk.injEq] at he
      obtain ⟨h1, _, _⟩ := he; subst h1; simp [Outcome.isOk] at hok
  | Return rets =>
    simp only [travel] at he
    rcases hR : travelReturn rets st with ⟨o, rs⟩
    rw [hR] at he
    (try dsimp only at he)
    simp only [Prod.mk.injEq] at he
    obtain ⟨_, _, h3⟩ := he; subst h3; rfl
  | MultiAssign ids call =>
    simp only [noEBb, Bool.and_eq_true] at h
    simp only [travel] at he
    rcases hM : travelMaTargets ids st with ⟨o1, ids2, s2⟩
    rw [hM] at he
    cases o1 with
    | ok u =>
      (try dsimp only at he)
      rcases hC : travel call s2 with ⟨o2, c2, s3⟩
      rw [hC] at he
      cases o2 with
      | ok u2 =>
        (try dsimp only at he)
        simp only [Prod.mk.injEq] at he
        obtain ⟨_, _, h3⟩ := he; subst h3
        have ih1 := travelMaTargets_shape ids st h.1 _ _ _ hM rfl
        have ih2 := travel_shape call s2 h.2 _ _ _ hC rfl
        rw [ih2, ih1]
      | err m =>
        (try dsimp only at he)
        simp only [Prod.mk.injEq] at he
        obtain ⟨h1, _, _⟩ := he; subst h1; simp [Outcome.isOk] at hok
      | fatal m =>
        (try dsimp only at he)
        simp only [Prod.mk.injEq] at he
        obtain ⟨h1, _, _⟩ := he; subst h1; simp [Outcome.isOk] at hok
    | err m =>
      (try dsimp only at he)
      simp only [Prod.mk.injEq] at he
      obtain ⟨h1, _, _⟩ := he; subst h1; simp [Outcome.isOk] at hok
    | fatal m =>
      (try dsimp only at he)
      simp only [Prod.mk.injEq] at he
      obtain ⟨h1, _, _⟩ := he; subst h1; simp [Outcome.isOk] at hok
  | Malloc e =>
    simp only [noEBb] at h
    simp only [travel] at he
    rcases hE : travel e st with ⟨o, e2, s2⟩
    rw [hE] at he
    (try dsimp only at he)
    simp only [Prod.mk.injEq] at he
    obtain ⟨h1, _, h3⟩ := he
    subst h1; subst h3
    exact travel_shape e st h _ _ _ hE hok
  | Printf f v =>
    simp only [noEBb, Bool.and_eq_true] at h
    simp only [travel] at he
    rcases hF : travel f st with ⟨o1, f2, s2⟩
    rw [hF] at he
    cases o1 with
    | ok u =>
      (try dsimp only at he)
      rcases hV : travel v s2 with ⟨o2, v2, s3⟩
      rw [hV] at he
      (try dsimp only at he)
      simp only [Prod.mk.injEq] at he
      obtain ⟨h1, _, h3⟩ := he
      subst h1; subst h3
      have ih1 := travel_shape f st h.1 _ _ _ hF rfl
      have ih2 := travel_shape v s2 h.2 _ _ _ hV hok
      rw [ih2, ih1]
    | err m =>
      (try dsimp only at he)
      simp only [Prod.mk.injEq] at he
      obtain ⟨h1, _, _⟩ := he; subst h1; simp [Outcome.isOk] at hok
    | fatal m =>
      (try dsimp only at he)
      simp only [Prod.mk.injEq] at he
      obtain ⟨h1, _, _⟩ := he; subst h1; simp [Outcome.isOk] at hok
  | Sqrt e =>
    simp only [noEBb] at h
    simp only [travel] at he
    rcases hE : travel e st with ⟨o, e2, s2⟩
    rw [hE] at he
    (try dsimp only at he)
    simp only [Prod.mk.injEq] at he
    obtain ⟨h1, _, h3⟩ := he
    subst h1; subst h3
    exact travel_shape e st h _ _ _ hE hok

/-- Scope-shape preservation for the short-circuiting node-list loops. -/
theorem travelList_shape (ns : List Node) (st : St) (h : noEBList ns = true)
    (r : Outcome Unit) (ns2 : List Node) (st2 : St)
    (he : travelList ns st = (r, ns2, st2)) (hok : r.isOk = true) : shape st2 = shape st := by
  cases ns with
  | nil =>
    simp only [travelList, Prod.mk.injEq] at he
    obtain ⟨_, _, h3⟩ := he; subst h3; rfl
  | cons n rest =>
    simp only [noEBList, Bool.and_eq_true] at h
    simp only [travelList] at he
    rcases hN : travel n st with ⟨o, m2, s2⟩
    rw [hN] at he
    cases o with
    | ok u =>
      (try dsimp only at he)
      rcases hR : travelList rest s2 with ⟨o2, r2, s3⟩
      rw [hR] at he
      (try dsimp only at he)
      simp only [Prod.mk.injEq] at he
      obtain ⟨h1, _, h3⟩ := he
      subst h1; subst h3
      have ih1 := travel_shape n st h.1 _ _ _ hN rfl
      have ih2 := travelList_shape rest s2 h.2 _ _ _ hR hok
      rw [ih2, ih1]
    | err m =>
      (try dsimp only at he)
      simp only [Prod.mk.injEq] at he
      obtain ⟨h1, _, _⟩ := he
      subst h1; simp [Outcome.isOk] at hok
    | fatal m =>
      (try dsimp only at he)
      simp only [Prod.mk.injEq] at he
      obtain ⟨h1, _, _⟩ := he
      subst h1; simp [Outcome.isOk] at hok

/-- Scope-shape preservation for the actual-argument loop of travel_call. -/
theorem travelActuals_shape (ns : List Node) (st : St) (h : noEBList ns = true)
    (r : Outcome (List Number)) (ns2 : List Node) (st2 : St)
    (he : travelActuals ns st = (r, ns2, st2)) (hok : r.isOk = true) : shape st2 = shape st := by
  cases ns with
  | nil =>
    simp only [travelActuals, Prod.mk.injEq] at he
    obtain ⟨_, _, h3⟩ := he; subst h3; rfl
  | cons n rest =>
    simp only [noEBList, Bool.and_eq_true] at h
    simp only [travelActuals] at he
    rcases hN : travel n st with ⟨o, m2, s2⟩
    rw [hN] at he
    cases o with
    | ok u =>
      (try dsimp only at he)
      cases hRed : reduceActual u with
      | ok ty =>
        rw [hRed] at he
        (try dsimp only at he)
        rcases hR : travelActuals rest s2 with ⟨o2, r2, s3⟩
        rw [hR] at he
        cases o2 with
        | ok tys =>
          (try dsimp only at he)
          simp only [Prod.mk.injEq] at he
          obtain ⟨h1, _, h3⟩ := he
          subst h3
          have ih1 := travel_shape n st h.1 _ _ _ hN rfl
          have ih2 := travelActuals_shape rest s2 h.2 _ _ _ hR rfl
          rw [ih2, ih1]
        | err m =>
          (try dsimp only at he)
          simp only [Prod.mk.injEq] at he
          obtain ⟨h1, _, _⟩ := he; subst h1; simp [Outcome.isOk] at hok
        | fatal m =>
          (try dsimp only at he)
          simp only [Prod.mk.injEq] at he
          obtain ⟨h1, _, _⟩ := he; subst h1; simp [Outcome.isOk] at hok
      | err m =>
        rw [hRed] at he
        (try dsimp only at he)
        simp only [Prod.mk.injEq] at he
        obtain ⟨h1, _, _⟩ := he; subst h1; simp [Outcome.isOk] at hok
      | fatal m =>
        rw [hRed] at he
        (try dsimp only at he)
        simp only [Prod.mk.injEq] at he
        obtain ⟨h1, _, _⟩ := he; subst h1; simp [Outcome.isOk] at hok
    | err m =>
      (try dsimp only at he)
      simp only [Prod.mk.injEq] at he
      obtain ⟨h1, _, _⟩ := he; subst h1; simp [Outcome.isOk] at hok
    | fatal m =>
      (try dsimp only at he)
      simp only [Prod.mk.injEq] at he
      obtain ⟨h1, _, _⟩ := he; subst h1; simp [Outcome.isOk] at hok

/-- Scope-shape preservation for the multi-assignment target loop. -/
theorem travelMaTargets_shape (ns : List Node) (st : St) (h : noEBList ns = true)
    (r : Outcome Unit) (ns2 : List Node) (st2 : St)
    (he : travelMaTargets ns st = (r, ns2, st2)) (hok : r.isOk = true) : shape st2 = shape st := by
  cases ns with
  | nil =>
    simp only [travelMaTargets, Prod.mk.injEq] at he
    obtain ⟨_, _, h3⟩ := he; subst h3; rfl
  | cons n rest =>
    simp only [noEBList, Bool.and_eq_true] at h
    simp only [travelMaTargets] at he
    split at he
    · split at he
      · simp only [Prod.mk.injEq] at he
        obtain ⟨h1, _, _⟩ := he; subst h1; simp [Outcome.isOk] at hok
      · rcases hR : travelMaTargets rest st with ⟨o2, r2, s2⟩
        rw [hR] at he
        (try dsimp only at he)
        simp only [Prod.mk.injEq] at he
        obtain ⟨h1, _, h3⟩ := he
        subst h1; subst h3
        exact travelMaTargets_shape rest st h.2 _ _ _ hR hok
    · rcases hN : travel n st with ⟨o, m2, s2⟩
      rw [hN] at he
      cases o with
      | ok u =>
        (try dsimp only at he)
        rcases hR : travelMaTargets rest s2 with ⟨o2, r2, s3⟩
        rw [hR] at he
        (try dsimp only at he)
        simp only [Prod.mk.injEq] at he
        obtain ⟨h1, _, h3⟩ := he
        subst h1; subst h3
        have ih1 := travel_shape n st h.1 _ _ _ hN rfl
        have ih2 := travelMaTargets_shape rest s2 h.2 _ _ _ hR hok
        rw [ih2, ih1]
      | err m =>
        (try dsimp only at he)
        simp only [Prod.mk.injEq] at he
        obtain ⟨h1, _, _⟩ := he; subst h1; simp [Outcome.isOk] at hok
      | fatal m =>
        (try dsimp only at he)
        simp only [Prod.mk.injEq] at he
        obtain ⟨h1, _, _⟩ := he; subst h1; simp [Outcome.isOk] at hok
end

theorem tblFind_listInsert_cases (tbl : List (String × Symbol)) (k key : String)
    (v s : Symbol) (h : tblFind (listInsert tbl k v) key = some s) :
    s = v ∨ tblFind tbl key = some s := by
  induction tbl with
  | nil =>
    by_cases hk : k = key
    · subst hk; simp [listInsert, tblFind] at h; exact Or.inl h.symm
    · simp [listInsert, tblFind, hk] at h
  | cons p rest ih =>
    obtain ⟨k0, v0⟩ := p
    by_cases h0 : k0 = k
    · subst h0
      by_cases hk : k0 = key
      · subst hk; simp [listInsert, tblFind] at h
        exact Or.inl h.symm
      · simp only [listInsert, if_pos rfl] at h
        simp only [tblFind, if_neg hk] at h
        right
        simp only [tblFind, if_neg hk]
        exact h
    · by_cases hk : k0 = key
      · subst hk
        simp only [listInsert, if_neg h0] at h
        simp only [tblFind, if_pos rfl] at h ⊢
        exact Or.inr h
      · simp only [listInsert, if_neg h0] at h
        simp only [tblFind, if_neg hk] at h ⊢
        exact ih h

theorem tblAllNone_insertNone (tbl : List (String × Symbol)) (k : String) (v : Symbol)
    (hv : symbolLen v = none)
    (hp : ∀ key s, tblFind tbl key = some s → symbolLen s = none) :
    ∀ key s, tblFind (listInsert tbl k v) key = some s → symbolLen s = none := by
  intro key s h
  rcases tblFind_listInsert_cases tbl k key v s h with h1 | h1
  · rw [h1]; exact hv
  · exact hp key s h1

theorem tblAllNone_infVar (name : String) (len : Nat) (tbl : List (String × Symbol))
    (hp : ∀ key s, tblFind tbl key = some s → symbolLen s = none) :
    ∀ key s, tblFind (infVarInsert name len tbl) key = some s → symbolLen s = none := by
  intro key s h
  unfold infVarInsert at h
  split at h
  · exact tblAllNone_insertNone tbl name
      (.IdentSymbol name (BuiltIn.mk .Felt) none) rfl hp key s h
  · exact tblAllNone_insertNone tbl name
      (.IdentSymbol name (BuiltIn.mk (.Array .Felt len)) none) rfl hp key s h

theorem tblAllNone_foldVars (l : List ProphetVar) (tbl : List (String × Symbol))
    (hp : ∀ key s, tblFind tbl key = some s → symbolLen s = none) :
    ∀ key s, tblFind (l.foldl (fun t i => infVarInsert i.name i.length t) tbl) key = some s →
      symbolLen s = none := by
  induction l generalizing tbl with
  | nil => exact hp
  | cons i rest ih =>
    simp only [List.foldl_cons]
    exact ih _ (tblAllNone_infVar i.name i.length tbl hp)

theorem tblAllNone_foldCtx (l : List (String × Nat)) (tbl : List (String × Symbol))
    (hp : ∀ key s, tblFind tbl key = some s → symbolLen s = none) :
    ∀ key s, tblFind (l.foldl (fun t c =>
      listInsert t c.1 (.IdentSymbol c.1 (BuiltIn.mk .Felt) none)) tbl) key = some s →
      symbolLen s = none := by
  induction l generalizing tbl with
  | nil => exact hp
  | cons c rest ih =>
    simp only [List.foldl_cons]
    exact ih _ (tblAllNone_insertNone tbl c.1
      (.IdentSymbol c.1 (BuiltIn.mk .Felt) none) rfl hp)

/-- Every symbol seeded into the root scope by SymTableGen::new carries no
array-length component, even when its builtin type is an array. -/
theorem symTableGenNew_len_none (p : OlaProphet) (nm : String) (s : Symbol)
    (h : lookup (symTableGenNew p) nm = some s) : symbolLen s = none := by
  simp only [symTableGenNew, lookup] at h
  have hbase : ∀ key s0, tblFind ([] : List (String × Symbol)) key = some s0 →
      symbolLen s0 = none := by intro key s0 h0; simp [tblFind] at h0
  have hall := tblAllNone_foldVars p.outputs _
    (tblAllNone_foldCtx p.ctx _ (tblAllNone_foldVars p.inputs [] hbase))
  split at h
  · next s0 hs0 =>
    cases h
    exact hall nm _ hs0
  · simp [lookup] at h

theorem checkParams_ok_of (ps : List (String × BuiltIn)) (tys : List Number) (k : Nat)
    (h : ∀ i (hi : i < ps.length),
      tys.get? (k + i) = some (Number.fromToken (ps.get ⟨i, hi⟩).2.t)) :
    checkParams ps tys k = .ok () := by
  induction ps generalizing k with
  | nil => simp [checkParams]
  | cons p rest ih =>
    have h0 := h 0 (by simp)
    simp only [Nat.add_zero, List.get] at h0
    simp only [checkParams, h0, if_pos rfl]
    apply ih
    intro i hi
    have hs := h (i + 1) (by simpa using Nat.succ_lt_succ hi)
    have e : k + (i + 1) = (k + 1) + i := by omega
    rw [e] at hs
    simpa [List.get] using hs

theorem checkParams_mismatch (ps : List (String × BuiltIn)) (tys : List Number) (k : Nat)
    (hlen : k + ps.length ≤ tys.length)
    (hmis : ∃ i, ∃ hi : i < ps.length,
      tys.get? (k + i) ≠ some (Number.fromToken (ps.get ⟨i, hi⟩).2.t)) :
    checkParams ps tys k = .fatal ("function params type not match") := by
  induction ps generalizing k with
  | nil =>
    obtain ⟨i, hi, _⟩ := hmis
    exact absurd hi (by simp)
  | cons p rest ih =>
    have hk : k < tys.length := by
      simp only [List.length_cons] at hlen; omega
    have ha : tys.get? k = some (tys.get ⟨k, hk⟩) := List.get?_eq_get hk
    by_cases heq : Number.fromToken p.2.t = tys.get ⟨k, hk⟩
    · simp only [checkParams, ha]
      rw [if_pos heq]
      apply ih
      · simp only [List.length_cons] at hlen; omega
      · obtain ⟨i, hi, hne⟩ := hmis
        cases i with
        | zero =>
          exfalso
          apply hne
          have hgp : ((p :: rest).get ⟨0, hi⟩) = p := rfl
          rw [hgp, Nat.add_zero, ha, ← heq]
        | succ j =>
          refine ⟨j, Nat.lt_of_succ_lt_succ (by simpa using hi), ?_⟩
          intro hcontra
          apply hne
          have e : k + (j + 1) = (k + 1) + j := by omega
          rw [e]
          exact hcontra
    · simp only [checkParams, ha]
      rw [if_neg heq]

theorem checkParams_unwrap (ps : List (String × BuiltIn)) (tys : List Number) (k : Nat)
    (hk : k ≤ tys.length)
    (hshort : tys.length < k + ps.length)
    (hpref : ∀ i (hi : i < ps.length), k + i < tys.length →
      tys.get? (k + i) = some (Number.fromToken (ps.get ⟨i, hi⟩).2.t)) :
    checkParams ps tys k = .fatal ("called Option::unwrap() on a None value") := by
  induction ps generalizing k with
  | nil =>
    exfalso
    simp only [List.length_nil, Nat.add_zero] at hshort
    omega
  | cons p rest ih =>
    by_cases hklt : k < tys.length
    · have ha : tys.get? k = some (tys.get ⟨k, hklt⟩) := List.get?_eq_get hklt
      have h0 : tys.get? k = some (Number.fromToken p.2.t) :=
        hpref 0 (by simp) (by omega)
      have heq : Number.fromToken p.2.t = tys.get ⟨k, hklt⟩ :=
        (Option.some_inj.mp (ha.symm.trans h0)).symm
      simp only [checkParams, ha]
      rw [if_pos heq]
      apply ih
      · omega
      · simp only [List.length_cons] at hshort; omega
      · intro i hi hilt
        have hs := hpref (i + 1) (by simpa using Nat.succ_lt_succ hi) (by omega)
        have e : k + (i + 1) = (k + 1) + i := by omega
        rw [e] at hs
        exact hs
    · have hnone : tys.get? k = none := by
        rw [List.get?_eq_none]
        omega
      simp only [checkParams, hnone]

/-- C2: a declaration node whose name already resolves anywhere in the current
enclosing-scope chain is rejected with a duplicate-declaration error naming
that name, whatever the two declarations' types, and the scope chain is
returned unchanged (no symbol is inserted). -/
theorem c2_duplicate_declaration (name : String) (typeTok : Token) (st : St)
    (h : (lookup st name).isSome = true) :
    travelDeclaration (.Id name) typeTok st =
      (.err ("Found duplicate variable declaration for \x27" ++ name ++ "\x27!"), st) := by
  simp [travelDeclaration, h]

/-- Witness for c2_duplicate_declaration: the name resolves only in the outer
scope of a two-scope chain and the two declared types differ, yet the
declaration is still rejected and nothing is inserted. -/
theorem c2_witness :
    travelDeclaration (.Id "x") .I32
      [⟨"entry", 2, []⟩, ⟨"Global Scope", 1, [("x", .IdentSymbol "x" (BuiltIn.mk .Felt) none)]⟩] =
      (.err ("Found duplicate variable declaration for \x27" ++ "x" ++ "\x27!"),
       [⟨"entry", 2, []⟩, ⟨"Global Scope", 1, [("x", .IdentSymbol "x" (BuiltIn.mk .Felt) none)]⟩]) :=
  c2_duplicate_declaration "x" .I32 _ (by rfl)

/-- C3: a reference to a name that lookup does not resolve anywhere in the
enclosing-scope chain fails with an undeclared-variable error naming the
identifier, for plain identifier nodes, indexed identifier nodes, context
identifier nodes, and bare identifiers inside return statements alike. -/
theorem c3_undeclared_reference (name : String) (idx : Node) (rest : List Node) (st : St)
    (h : lookup st name = none) :
    travelIdent (.Id name) st =
      (.err ("identifier Undeclared variable " ++ name ++ " found."), .Id name) ∧
    travel (.IdentIndex (.Id name) idx) st =
      (.err ("identifier Undeclared variable " ++ name ++ " found."),
       .IdentIndex (.Id name) idx, st) ∧
    travelContextIdent (.Cid name) st =
      .err ("identifier Undeclared variable " ++ name ++ " found.") ∧
    travelReturn (.Ident (.Id name) :: rest) st =
      (.err ("assign Undeclared variable " ++ name ++ " found."), .Ident (.Id name) :: rest) := by
  refine ⟨?_, ?_, ?_, ?_⟩
  · simp [travelIdent, h]
  · simp [travel, h, Option.isNone]
  · simp [travelContextIdent, h]
  · simp [travelReturn, travelReturnGo, Token.str, h]

/-- Witness for c3_undeclared_reference at a concrete empty scope. -/
theorem c3_witness :
    travelIdent (.Id "y") [⟨"Global Scope", 1, []⟩] =
      (.err ("identifier Undeclared variable " ++ "y" ++ " found."), .Id "y") ∧
    travel (.IdentIndex (.Id "y") (.IntegerNum 0)) [⟨"Global Scope", 1, []⟩] =
      (.err ("identifier Undeclared variable " ++ "y" ++ " found."),
       .IdentIndex (.Id "y") (.IntegerNum 0), [⟨"Global Scope", 1, []⟩]) ∧
    travelContextIdent (.Cid "y") [⟨"Global Scope", 1, []⟩] =
      .err ("identifier Undeclared variable " ++ "y" ++ " found.") ∧
    travelReturn [.Ident (.Id "y")] [⟨"Global Scope", 1, []⟩] =
      (.err ("assign Undeclared variable " ++ "y" ++ " found."), [.Ident (.Id "y")]) :=
  c3_undeclared_reference "y" (.IntegerNum 0) [] [⟨"Global Scope", 1, []⟩] (by rfl)

/-- C7: a declaration whose type-annotation token (whether the plain builtin
annotation or the element token of an array annotation) does not resolve to a
registered builtin-type symbol aborts with a fatal internal error (Outcome
fatal, distinct from the user-facing Outcome err), returning the scope chain
unchanged: it never silently succeeds without inserting a symbol. -/
theorem c7_unregistered_annotation (name : String) (bt typeTok : Token) (len : Nat) (st : St)
    (hl : lookup st name = none)
    (hbt : isRegisteredBuiltin bt = false)
    (ht : isRegisteredBuiltin typeTok = false)
    (hna : isArrayTok typeTok = false) :
    travelDeclaration (.Id name) (.Array bt len) st =
      (.fatal ("Invalid builtin type " ++ bt.str), st) ∧
    travelDeclaration (.Id name) typeTok st =
      (.fatal ("Invalid builtin type " ++ typeTok.str), st) := by
  constructor
  · simp [travelDeclaration, hl, scopeGet, hbt]
  · cases typeTok with
    | Id s => simp [travelDeclaration, hl, scopeGet, isRegisteredBuiltin]
    | ArrayId s => simp [travelDeclaration, hl, scopeGet, isRegisteredBuiltin]
    | Cid s => simp [travelDeclaration, hl, scopeGet, isRegisteredBuiltin]
    | Felt => simp [isRegisteredBuiltin] at ht
    | I32 => simp [isRegisteredBuiltin] at ht
    | Array e l => simp [isArrayTok] at hna
    | Entry => simp [travelDeclaration, hl, scopeGet, isRegisteredBuiltin]

/-- Witness for c7_unregistered_annotation with the unregistered token Entry. -/
theorem c7_witness :
    travelDeclaration (.Id "x") (.Array .Entry 3) [⟨"Global Scope", 1, []⟩] =
      (.fatal ("Invalid builtin type " ++ Token.str .Entry), [⟨"Global Scope", 1, []⟩]) ∧
    travelDeclaration (.Id "x") .Entry [⟨"Global Scope", 1, []⟩] =
      (.fatal ("Invalid builtin type " ++ Token.str .Entry), [⟨"Global Scope", 1, []⟩]) :=
  c7_unregistered_annotation "x" .Entry .Entry 3 [⟨"Global Scope", 1, []⟩]
    (by rfl) (by rfl) (by rfl) (by rfl)

/-- C9: an identifier reference whose name resolves to a variable symbol is
re-tagged in place to an ArrayId token and typed as the element type expanded
to the declared length when the symbol carries an array length; when the
symbol carries none, the node is left unchanged and the computed type is
exactly the symbol's builtin type. -/
theorem c9_ident_resolution (name n2 : String) (t : Token) (sz : Option Nat) (st : St)
    (h : lookup st name = some (.IdentSymbol n2 (BuiltIn.mk t) sz)) :
    (∀ l, sz = some l →
      travelIdent (.Id name) st = (.ok (.Single (numberFromToken t l)), .ArrayId name)) ∧
    (sz = none →
      travelIdent (.Id name) st = (.ok (.Single (Number.fromToken t)), .Id name)) := by
  constructor
  · intro l hl; subst hl; simp [travelIdent, h]
  · intro hl; subst hl; simp [travelIdent, h]

/-- Witness for c9_ident_resolution: an array variable of length 4 is
re-tagged and typed as a length-4 Felt array; a scalar variable is left
unchanged and typed Felt. -/
theorem c9_witness :
    (travelIdent (.Id "arr")
      [⟨"Global Scope", 1, [("arr", .IdentSymbol "arr" (BuiltIn.mk .Felt) (some 4))]⟩] =
      (.ok (.Single (numberFromToken .Felt 4)), .ArrayId "arr")) ∧
    (travelIdent (.Id "x")
      [⟨"Global Scope", 1, [("x", .IdentSymbol "x" (BuiltIn.mk .Felt) none)]⟩] =
      (.ok (.Single (Number.fromToken .Felt)), .Id "x")) :=
  ⟨(c9_ident_resolution "arr" "arr" .Felt (some 4) _ (by rfl)).1 4 rfl,
   (c9_ident_resolution "x" "x" .Felt none _ (by rfl)).2 rfl⟩

/-- C10: travel_array reads the first literal element unconditionally: on a
nonempty array literal it returns Single of the first element's type, and on
an empty literal it aborts with the out-of-bounds panic (Outcome fatal), not
with a recoverable semantic error. -/
theorem c10_array_literal (vs : List Number) :
    (∀ v rest, vs = v :: rest →
      travelArray vs = .ok (.Single (Number.fromToken v.numberType))) ∧
    (vs = [] →
      travelArray vs = .fatal ("index out of bounds: the len is 0 but the index is 0")) := by
  constructor
  · intro v rest hv; subst hv; simp [travelArray]
  · intro hv; subst hv; simp [travelArray]

/-- Witness for c10_array_literal at a singleton Felt literal and at the empty
literal. -/
theorem c10_witness :
    travelArray [Number.Felt] = .ok (.Single (Number.fromToken Number.Felt.numberType)) ∧
    travelArray [] = .fatal ("index out of bounds: the len is 0 but the index is 0") :=
  ⟨(c10_array_literal [Number.Felt]).1 Number.Felt [] rfl,
   (c10_array_literal []).2 rfl⟩

/-- C1: for a call whose callee name resolves to a function symbol and whose
actual arguments all type successfully, the formal parameter types are compared
position by position against the computed actual types by structural type-value
equality; if every position matches exactly the call succeeds and the call node
is annotated with the resolved function symbol, and any mismatch aborts the
pass with the fatal argument-type-mismatch error. -/
theorem c1_call_argument_typecheck (fname : Token) (actuals actuals2 : List Node)
    (fs : Option Symbol) (st st2 : St) (nm : String)
    (ps : List (String × BuiltIn)) (body : Node) (tys : List Number)
    (hsym : lookup st (Token.str fname) = some (.FuncSymbol nm ps body))
    (hact : travelActuals actuals st = (.ok tys, actuals2, st2))
    (hlen : ps.length ≤ tys.length) :
    ((∀ i (hi : i < ps.length),
        tys.get? i = some (Number.fromToken (ps.get ⟨i, hi⟩).2.t)) →
      travel (.Call fname actuals fs) st =
        (.ok (.Single .Nil), .Call fname actuals2 (some (.FuncSymbol nm ps body)), st2)) ∧
    ((∃ i, ∃ hi : i < ps.length,
        tys.get? i ≠ some (Number.fromToken (ps.get ⟨i, hi⟩).2.t)) →
      travel (.Call fname actuals fs) st =
        (.fatal ("function params type not match"), .Call fname actuals2 fs, st2)) := by
  constructor
  · intro hall
    have hc := checkParams_ok_of ps tys 0 (by simpa using hall)
    simp [travel, hact, hsym, hc]
  · intro hmis
    have hc := checkParams_mismatch ps tys 0 (by omega) (by simpa using hmis)
    simp [travel, hact, hsym, hc]

/-- Witness for c1_call_argument_typecheck: calling f(felt) with one Felt
literal succeeds and annotates the call node with the resolved symbol. -/
theorem c1_witness :
    travel (.Call (.Id "f") [.FeltNum 7] none)
      [⟨"Global Scope", 1,
        [("f", .FuncSymbol "f" [("a", BuiltIn.mk .Felt)] (.Block [] (.Compound [])))]⟩] =
      (.ok (.Single .Nil),
       .Call (.Id "f") [.FeltNum 7]
         (some (.FuncSymbol "f" [("a", BuiltIn.mk .Felt)] (.Block [] (.Compound [])))),
       [⟨"Global Scope", 1,
         [("f", .FuncSymbol "f" [("a", BuiltIn.mk .Felt)] (.Block [] (.Compound [])))]⟩]) := by
  refine (c1_call_argument_typecheck (.Id "f") [.FeltNum 7] [.FeltNum 7] none _ _ "f"
    [("a", BuiltIn.mk .Felt)] (.Block [] (.Compound [])) [.Felt]
    (by rfl) (by simp [travelActuals, travel, reduceActual]) (by simp)).1 ?_
  intro i hi
  have h0 : i = 0 := by simpa using hi
  subst h0
  rfl

/-- C4 counterexample: travel_entry_block succeeds on the empty entry block
but the current-scope chain after its return is the fresh entry scope pushed
on top of the previous chain, not the previous chain itself, so the cursor is
not restored on the success path. -/
theorem c4_counterexample :
    (travel (.EntryBlock [] (.Compound [])) (symTableGenNew ⟨[], [], []⟩)).1.isOk = true ∧
    (travel (.EntryBlock [] (.Compound [])) (symTableGenNew ⟨[], [], []⟩)).2.2 ≠
      symTableGenNew ⟨[], [], []⟩ := by
  have hev : travel (.EntryBlock [] (.Compound [])) (symTableGenNew ⟨[], [], []⟩) =
      (.ok (.Single .Nil), .EntryBlock [] (.Compound []),
       [⟨"entry", 2, []⟩, ⟨"Global Scope", 1, []⟩]) := by
    simp [travel, travelList, symTableGenNew, headLevel, Token.str]
  rw [hev]
  refine ⟨rfl, ?_⟩
  intro hcontra
  have hlen := congrArg List.length hcontra
  simp [symTableGenNew] at hlen

/-- C4 amended: for entry-block-free subtrees, travel_function restores the
current-scope cursor to the pre-call scope exactly when it returns Ok (the
scope chain keeps its labels and levels; the cursor is back on the same scope
of the scope tree), while travel_entry_block never restores the cursor: on its
success path the chain ends one scope deeper, on the fresh entry scope. -/
theorem c4_scope_cursor_amended :
    (∀ fname params blk st o n2 st2,
      noEBb (Node.Function fname params blk) = true →
      travel (.Function fname params blk) st = (o, n2, st2) →
      o.isOk = true → shape st2 = shape st) ∧
    (∀ decls comp st o n2 st2,
      noEBList decls = true → noEBb comp = true →
      travel (.EntryBlock decls comp) st = (o, n2, st2) →
      o.isOk = true →
      shape st2 = (Token.str .Entry, headLevel st + 1) :: shape st) := by
  constructor
  · intro fname params blk st o n2 st2 hne he hok
    exact travel_shape _ st hne _ _ _ he hok
  · intro decls comp st o n2 st2 hd hc he hok
    simp only [travel] at he
    rcases hL : travelList decls (⟨Token.str .Entry, headLevel st + 1, []⟩ :: st)
      with ⟨o1, d2, s2⟩
    rw [hL] at he
    cases o1 with
    | ok u =>
      (try dsimp only at he)
      rcases hC : travel comp s2 with ⟨o2, c2, s3⟩
      rw [hC] at he
      (try dsimp only at he)
      simp only [Prod.mk.injEq] at he
      obtain ⟨h1, _, h3⟩ := he
      subst h1; subst h3
      have hs1 := travelList_shape decls _ hd _ _ _ hL rfl
      have hs2 := travel_shape comp s2 hc _ _ _ hC hok
      rw [hs2, hs1]
      simp [shape]
    | err m =>
      (try dsimp only at he)
      simp only [Prod.mk.injEq] at he
      obtain ⟨h1, _, _⟩ := he
      subst h1; simp [Outcome.isOk] at hok
    | fatal m =>
      (try dsimp only at he)
      simp only [Prod.mk.injEq] at he
      obtain ⟨h1, _, _⟩ := he
      subst h1; simp [Outcome.isOk] at hok

/-- Witness for c4_scope_cursor_amended: a successful empty function
definition restores the scope shape, while the successful empty entry block
leaves the entry scope current, one level deeper. -/
theorem c4_witness :
    shape ((travel (.Function (.Id "g") [] (.Block [] (.Compound [])))
        (symTableGenNew ⟨[], [], []⟩)).2.2) = shape (symTableGenNew ⟨[], [], []⟩) ∧
    shape ((travel (.EntryBlock [] (.Compound []))
        (symTableGenNew ⟨[], [], []⟩)).2.2) =
      (Token.str .Entry, headLevel (symTableGenNew ⟨[], [], []⟩) + 1) ::
        shape (symTableGenNew ⟨[], [], []⟩) := by
  have h1 : travel (.Function (.Id "g") [] (.Block [] (.Compound [])))
      (symTableGenNew ⟨[], [], []⟩) =
      (.ok (.Single .Nil), .Function (.Id "g") [] (.Block [] (.Compound [])),
       [⟨"Global Scope", 1,
         [("g", .FuncSymbol "g" [] (.Block [] (.Compound [])))]⟩]) := by
    simp [travel, travelList, processParams, stInsertNamed, listInsert,
      symTableGenNew, headLevel]
  have h2 : travel (.EntryBlock [] (.Compound [])) (symTableGenNew ⟨[], [], []⟩) =
      (.ok (.Single .Nil), .EntryBlock [] (.Compound []),
       [⟨"entry", 2, []⟩, ⟨"Global Scope", 1, []⟩]) := by
    simp [travel, travelList, symTableGenNew, headLevel, Token.str]
  constructor
  · have := c4_scope_cursor_amended.1 (.Id "g") [] (.Block [] (.Compound []))
      (symTableGenNew ⟨[], [], []⟩) _ _ _ (by simp [noEBb, noEBList]) h1 rfl
    rw [h1]
    simpa [h1] using this
  · have := c4_scope_cursor_amended.2 [] (.Compound [])
      (symTableGenNew ⟨[], [], []⟩) _ _ _ (by simp [noEBList]) (by simp [noEBb, noEBList]) h2 rfl
    simpa [h2] using this

/-- C5 counterexample: SymTableGen::new seeds the input (x, 2) as a variable
symbol whose builtin type is the array Array(Felt, 2) while its optional
array-length component is None, so the length component is not present iff the
binding is an array. -/
theorem c5_counterexample :
    lookup (symTableGenNew ⟨[⟨"x", 2⟩], [], []⟩) "x" =
      some (.IdentSymbol "x" (BuiltIn.mk (.Array .Felt 2)) none) ∧
    ¬ (((symbolLen (Symbol.IdentSymbol "x" (BuiltIn.mk (.Array .Felt 2)) none)).isSome = true) ↔
       (bindingIsArray (Symbol.IdentSymbol "x" (BuiltIn.mk (.Array .Felt 2)) none) = true)) := by
  refine ⟨by rfl, ?_⟩
  intro hiff
  have := hiff.mpr (by rfl)
  simp [symbolLen] at this

/-- C5 amended: the present-iff-array rule holds at the two insertion sites the
pass itself performs — a user declaration stores Some length exactly for an
array annotation (with the element builtin type), and a function parameter
stores Some length exactly for an array parameter type — while root-scope
seeding always stores None, typing a length-L input or output (L not 1) as a
Felt array with no length component. -/
theorem c5_array_length_amended (p : OlaProphet) (nm name pn : String) (s : Symbol)
    (bt typeTok : Token) (len l2 : Nat) (st : St)
    (hseed : lookup (symTableGenNew p) nm = some s)
    (hl : lookup st name = none)
    (hbt : isRegisteredBuiltin bt = true)
    (hsc : isRegisteredBuiltin typeTok = true) :
    symbolLen s = none ∧
    travelDeclaration (.Id name) (.Array bt len) st =
      (.ok (.Single .Nil), stInsert (.IdentSymbol name (BuiltIn.mk bt) (some len)) st) ∧
    (isArrayTok typeTok = false →
      travelDeclaration (.Id name) typeTok st =
        (.ok (.Single .Nil), stInsert (.IdentSymbol name (BuiltIn.mk typeTok) none) st)) ∧
    (∀ e, processParams [.IdentDeclaration (.Id pn) (.Array e l2)] [] [] =
      .ok ([(pn, BuiltIn.mk (.Array e l2))],
           [(pn, .IdentSymbol pn (BuiltIn.mk (.Array e l2)) (some l2))],
           [.IdentDeclaration (.ArrayId pn) (.Array e l2)])) ∧
    (isArrayTok typeTok = false →
      processParams [.IdentDeclaration (.Id pn) typeTok] [] [] =
        .ok ([(pn, BuiltIn.mk typeTok)],
             [(pn, .IdentSymbol pn (BuiltIn.mk typeTok) none)],
             [.IdentDeclaration (.Id pn) typeTok])) := by
  refine ⟨symTableGenNew_len_none p nm s hseed, ?_, ?_, ?_, ?_⟩
  · simp [travelDeclaration, hl, scopeGet, hbt]
  · intro hna
    cases typeTok with
    | Felt => simp [travelDeclaration, hl, scopeGet, isRegisteredBuiltin]
    | I32 => simp [travelDeclaration, hl, scopeGet, isRegisteredBuiltin]
    | Array e l => simp [isArrayTok] at hna
    | Id u => simp [isRegisteredBuiltin] at hsc
    | ArrayId u => simp [isRegisteredBuiltin] at hsc
    | Cid u => simp [isRegisteredBuiltin] at hsc
    | Entry => simp [isRegisteredBuiltin] at hsc
  · intro e
    simp [processParams, Token.str, listInsert]
  · intro hna
    cases typeTok with
    | Felt => simp [processParams, Token.str, listInsert]
    | I32 => simp [processParams, Token.str, listInsert]
    | Array e l => simp [isArrayTok] at hna
    | Id u => simp [isRegisteredBuiltin] at hsc
    | ArrayId u => simp [isRegisteredBuiltin] at hsc
    | Cid u => simp [isRegisteredBuiltin] at hsc
    | Entry => simp [isRegisteredBuiltin] at hsc

/-- Witness for c5_array_length_amended at a seeded length-2 input, a Felt
array declaration, a plain Felt declaration, and array and scalar function
parameters. -/
theorem c5_witness :
    symbolLen (Symbol.IdentSymbol "x" (BuiltIn.mk (.Array .Felt 2)) none) = none ∧
    travelDeclaration (.Id "a") (.Array .Felt 4) [⟨"Global Scope", 1, []⟩] =
      (.ok (.Single .Nil),
       stInsert (.IdentSymbol "a" (BuiltIn.mk .Felt) (some 4)) [⟨"Global Scope", 1, []⟩]) ∧
    (isArrayTok Token.Felt = false →
      travelDeclaration (.Id "a") .Felt [⟨"Global Scope", 1, []⟩] =
        (.ok (.Single .Nil),
         stInsert (.IdentSymbol "a" (BuiltIn.mk .Felt) none) [⟨"Global Scope", 1, []⟩])) ∧
    (∀ e, processParams [.IdentDeclaration (.Id "p") (.Array e 3)] [] [] =
      .ok ([("p", BuiltIn.mk (.Array e 3))],
           [("p", .IdentSymbol "p" (BuiltIn.mk (.Array e 3)) (some 3))],
           [.IdentDeclaration (.ArrayId "p") (.Array e 3)])) ∧
    (isArrayTok Token.Felt = false →
      processParams [.IdentDeclaration (.Id "p") .Felt] [] [] =
        .ok ([("p", BuiltIn.mk .Felt)],
             [("p", .IdentSymbol "p" (BuiltIn.mk .Felt) none)],
             [.IdentDeclaration (.Id "p") .Felt])) :=
  c5_array_length_amended ⟨[⟨"x", 2⟩], [], []⟩ "x" "a" "p"
    (Symbol.IdentSymbol "x" (BuiltIn.mk (.Array .Felt 2)) none)
    .Felt .Felt 4 3 [⟨"Global Scope", 1, []⟩] (by rfl) (by rfl) (by rfl) (by rfl)

/-- C6 counterexample: with function f declared over one Felt parameter, the
call f() with too few arguments aborts with the internal unwrap panic (Outcome
fatal, carrying no name), and the call f(felt, felt) with too many arguments
is silently accepted; neither is a user-facing argument-count diagnostic. -/
theorem c6_counterexample :
    (travel (.Call (.Id "f") [] none)
      [⟨"Global Scope", 1,
        [("f", .FuncSymbol "f" [("a", BuiltIn.mk .Felt)] (.Block [] (.Compound [])))]⟩]).1 =
      .fatal ("called Option::unwrap() on a None value") ∧
    (travel (.Call (.Id "f") [.FeltNum 1, .FeltNum 2] none)
      [⟨"Global Scope", 1,
        [("f", .FuncSymbol "f" [("a", BuiltIn.mk .Felt)] (.Block [] (.Compound [])))]⟩]).1.isOk
      = true := by
  constructor
  · simp [travel, travelActuals, lookup, tblFind, Token.str, checkParams]
  · simp [travel, travelActuals, reduceActual, lookup, tblFind, Token.str, checkParams,
      Outcome.isOk, Number.fromToken]

/-- C6 amended: a call whose actual-argument count is smaller than the formal
count aborts with the internal unwrap fatal error (no offending name) once the
actuals present all match, and a call with more actuals than formals whose
compared positions all match is accepted silently with the extra arguments
unchecked; the pass has no user-facing argument-count diagnostic. -/
theorem c6_argument_count_amended (fname : Token) (actuals actuals2 : List Node)
    (fs : Option Symbol) (st st2 : St) (nm : String)
    (ps : List (String × BuiltIn)) (body : Node) (tys : List Number)
    (hsym : lookup st (Token.str fname) = some (.FuncSymbol nm ps body))
    (hact : travelActuals actuals st = (.ok tys, actuals2, st2)) :
    (tys.length < ps.length →
      (∀ i (hi : i < ps.length), i < tys.length →
        tys.get? i = some (Number.fromToken (ps.get ⟨i, hi⟩).2.t)) →
      travel (.Call fname actuals fs) st =
        (.fatal ("called Option::unwrap() on a None value"), .Call fname actuals2 fs, st2)) ∧
    (ps.length ≤ tys.length →
      (∀ i (hi : i < ps.length),
        tys.get? i = some (Number.fromToken (ps.get ⟨i, hi⟩).2.t)) →
      travel (.Call fname actuals fs) st =
        (.ok (.Single .Nil), .Call fname actuals2 (some (.FuncSymbol nm ps body)), st2)) := by
  constructor
  · intro hshort hpref
    have hc := checkParams_unwrap ps tys 0 (by omega) (by omega)
      (by intro i hi hlt; simpa using hpref i hi (by simpa using hlt))
    simp [travel, hact, hsym, hc]
  · intro hlen hall
    have hc := checkParams_ok_of ps tys 0 (by simpa using hall)
    simp [travel, hact, hsym, hc]

/-- Witness for c6_argument_count_amended: f over (Felt, Felt) called with one
Felt actual hits the unwrap fatal error, and f over (Felt) called with two
Felt actuals is accepted. -/
theorem c6_witness :
    travel (.Call (.Id "f") [.FeltNum 1] none)
      [⟨"Global Scope", 1,
        [("f", .FuncSymbol "f" [("a", BuiltIn.mk .Felt), ("b", BuiltIn.mk .Felt)]
          (.Block [] (.Compound [])))]⟩] =
      (.fatal ("called Option::unwrap() on a None value"),
       .Call (.Id "f") [.FeltNum 1] none,
       [⟨"Global Scope", 1,
         [("f", .FuncSymbol "f" [("a", BuiltIn.mk .Felt), ("b", BuiltIn.mk .Felt)]
           (.Block [] (.Compound [])))]⟩]) ∧
    travel (.Call (.Id "g") [.FeltNum 1, .FeltNum 2] none)
      [⟨"Global Scope", 1,
        [("g", .FuncSymbol "g" [("a", BuiltIn.mk .Felt)] (.Block [] (.Compound [])))]⟩] =
      (.ok (.Single .Nil),
       .Call (.Id "g") [.FeltNum 1, .FeltNum 2]
         (some (.FuncSymbol "g" [("a", BuiltIn.mk .Felt)] (.Block [] (.Compound [])))),
       [⟨"Global Scope", 1,
         [("g", .FuncSymbol "g" [("a", BuiltIn.mk .Felt)] (.Block [] (.Compound [])))]⟩]) := by
  constructor
  · refine (c6_argument_count_amended (.Id "f") [.FeltNum 1] [.FeltNum 1] none _ _ "f"
      [("a", BuiltIn.mk .Felt), ("b", BuiltIn.mk .Felt)] (.Block [] (.Compound [])) [.Felt]
      (by rfl) (by simp [travelActuals, travel, reduceActual])).1 (by simp) ?_
    intro i hi hlt
    have h0 : i = 0 := by simpa using hlt
    subst h0
    rfl
  · refine (c6_argument_count_amended (.Id "g") [.FeltNum 1, .FeltNum 2]
      [.FeltNum 1, .FeltNum 2] none _ _ "g"
      [("a", BuiltIn.mk .Felt)] (.Block [] (.Compound [])) [.Felt, .Felt]
      (by rfl) (by simp [travelActuals, travel, reduceActual])).2 (by simp) ?_
    intro i hi
    have h0 : i = 0 := by simpa using hi
    subst h0
    rfl

/-- C8 counterexample: the pass succeeds on a program declaring the array a
and referencing it, re-tagging the reference to an ArrayId token; running the
pass a second time over that already-mutated tree does not succeed: the
re-tagged plain identifier node no longer matches travel_ident's Id pattern
and the second run fails with an invalid-identifier error. -/
theorem c8_counterexample :
    (travel (.Entry [.IdentDeclaration (.Id "a") (.Array .Felt 2)]
        (.EntryBlock [] (.Compound [.Ident (.Id "a")])))
      (symTableGenNew ⟨[], [], []⟩)).1 = .ok (.Single .Nil) ∧
    (travel (.Entry [.IdentDeclaration (.Id "a") (.Array .Felt 2)]
        (.EntryBlock [] (.Compound [.Ident (.Id "a")])))
      (symTableGenNew ⟨[], [], []⟩)).2.1 =
      .Entry [.IdentDeclaration (.Id "a") (.Array .Felt 2)]
        (.EntryBlock [] (.Compound [.Ident (.ArrayId "a")])) ∧
    (travel ((travel (.Entry [.IdentDeclaration (.Id "a") (.Array .Felt 2)]
        (.EntryBlock [] (.Compound [.Ident (.Id "a")])))
      (symTableGenNew ⟨[], [], []⟩)).2.1) (symTableGenNew ⟨[], [], []⟩)).1 =
      .err ("Invalid identifier found travel_ident" ++ "a") := by
  have h1 : travel (.Entry [.IdentDeclaration (.Id "a") (.Array .Felt 2)]
        (.EntryBlock [] (.Compound [.Ident (.Id "a")])))
      (symTableGenNew ⟨[], [], []⟩) =
      (.ok (.Single .Nil),
       .Entry [.IdentDeclaration (.Id "a") (.Array .Felt 2)]
         (.EntryBlock [] (.Compound [.Ident (.ArrayId "a")])),
       [⟨"entry", 2, []⟩,
        ⟨"Global Scope", 1, [("a", .IdentSymbol "a" (BuiltIn.mk .Felt) (some 2))]⟩]) := by
    simp [travel, travelList, travelDeclaration, travelIdent, scopeGet, symTableGenNew,
      headLevel, Token.str, lookup, tblFind, stInsert, listInsert, Symbol.symName,
      isRegisteredBuiltin, numberFromToken]
  rw [h1]
  refine ⟨rfl, rfl, ?_⟩
  simp [travel, travelList, travelDeclaration, travelIdent, scopeGet, symTableGenNew,
    headLevel, Token.str, lookup, tblFind, stInsert, listInsert, Symbol.symName,
    isRegisteredBuiltin]

/-- C8 amended: re-tagging is consistent at every visited use site — a plain
reference, assignment target, or returned identifier whose symbol carries an
array length is always left tagged ArrayId — but the pass is not idempotent: a
plain identifier node already re-tagged to ArrayId no longer matches
travel_ident's Id pattern, so a second run fails there with an
invalid-identifier error. -/
theorem c8_retagging_amended (name n2 : String) (b : BuiltIn) (l : Nat)
    (rest : List Node) (st : St) :
    travelIdent (.ArrayId name) st =
      (.err ("Invalid identifier found travel_ident" ++ name), .ArrayId name) ∧
    (lookup st name = some (.IdentSymbol n2 b (some l)) →
      (travelIdent (.Id name) st).2 = .ArrayId name ∧
      (assignCheck (.Id name) st).2 = .ArrayId name ∧
      (travelReturnGo (.Ident (.Id name) :: rest) st).2 =
        .Ident (.ArrayId n2) :: (travelReturnGo rest st).2) := by
  constructor
  · simp [travelIdent, Token.str]
  · intro h
    obtain ⟨bt⟩ := b
    refine ⟨by simp [travelIdent, h], by simp [assignCheck, h], ?_⟩
    simp [travelReturnGo, Token.str, h]

/-- Witness for c8_retagging_amended at a concrete scope binding a to a
length-2 Felt array. -/
theorem c8_witness :
    travelIdent (.ArrayId "a")
      [⟨"Global Scope", 1, [("a", .IdentSymbol "a" (BuiltIn.mk .Felt) (some 2))]⟩] =
      (.err ("Invalid identifier found travel_ident" ++ "a"), .ArrayId "a") ∧
    (lookup [⟨"Global Scope", 1, [("a", .IdentSymbol "a" (BuiltIn.mk .Felt) (some 2))]⟩] "a" =
        some (.IdentSymbol "a" (BuiltIn.mk .Felt) (some 2)) →
      (travelIdent (.Id "a")
        [⟨"Global Scope", 1, [("a", .IdentSymbol "a" (BuiltIn.mk .Felt) (some 2))]⟩]).2 =
        .ArrayId "a" ∧
      (assignCheck (.Id "a")
        [⟨"Global Scope", 1, [("a", .IdentSymbol "a" (BuiltIn.mk .Felt) (some 2))]⟩]).2 =
        .ArrayId "a" ∧
      (travelReturnGo [.Ident (.Id "a")]
        [⟨"Global Scope", 1, [("a", .IdentSymbol "a" (BuiltIn.mk .Felt) (some 2))]⟩]).2 =
        .Ident (.ArrayId "a") :: (travelReturnGo []
          [⟨"Global Scope", 1, [("a", .IdentSymbol "a" (BuiltIn.mk .Felt) (some 2))]⟩]).2) :=
  c8_retagging_amended "a" "a" (BuiltIn.mk .Felt) 2 []
    [⟨"Global Scope", 1, [("a", .IdentSymbol "a" (BuiltIn.mk .Felt) (some 2))]⟩]

end OlaSema
